import Mathlib

/-!
Verification of the statement/expression parser core of the acorn fork.

Each definition below is a shallow embedding of one function of the source
(files `src/acorn/src/*.js` and the unnamed parts `src/unnamed/part_00x`),
translated line by line.  Stateful parser code is modelled by explicit state
passing; `raise`/`raiseRecoverable` (which both abort in the base parser)
become `Except.error`.  Where a function consults collaborators that are not
part of the repository snapshot (the Unicode identifier tables of
`identifier.js`), the model is marked `Modelled from the spec:`.
-/

namespace Acorn

/-- A parse error: `raise(pos, msg)` / `raiseRecoverable(pos, msg)`.  In the
base parser both abort parsing at `pos` with message `msg`. -/
structure PErr where
  pos : Int
  msg : String
deriving Repr, DecidableEq

/- ----------------------------------------------------------------
   parseutil.js: DestructuringErrors, checkPatternErrors,
   checkExpressionErrors  (claim C6)
   ---------------------------------------------------------------- -/

/-- `DestructuringErrors` record (parseutil.js 128-137); every field starts
at -1 and stores the earliest offending offset once set. -/
structure DestructuringErrors where
  shorthandAssign : Int := -1
  trailingComma : Int := -1
  parenthesizedAssign : Int := -1
  parenthesizedBind : Int := -1
  doubleProto : Int := -1
deriving Repr, DecidableEq

/-- `checkPatternErrors(refDestructuringErrors, isAssign)`
(parseutil.js 139-145): promotes `trailingComma`, then the parenthesized
field selected by `isAssign`, to an error. -/
def checkPatternErrors (refDestructuringErrors : Option DestructuringErrors)
    (isAssign : Bool) : Except PErr Unit :=
  match refDestructuringErrors with
  | none => .ok ()
  | some r =>
    if r.trailingComma > -1 then
      .error ⟨r.trailingComma, "Comma is not permitted after the rest element"⟩
    else
      let parens := if isAssign then r.parenthesizedAssign else r.parenthesizedBind
      if parens > -1 then
        .error ⟨parens, if isAssign then "Assigning to rvalue" else "Parenthesized pattern"⟩
      else .ok ()

/-- `checkExpressionErrors(refDestructuringErrors, andThrow)`
(parseutil.js 148-156): with `andThrow` it promotes `shorthandAssign`
then `doubleProto`; otherwise it just reports whether either is set. -/
def checkExpressionErrors (refDestructuringErrors : Option DestructuringErrors)
    (andThrow : Bool) : Except PErr Bool :=
  match refDestructuringErrors with
  | none => .ok false
  | some r =>
    if !andThrow then
      .ok (r.shorthandAssign ≥ 0 || r.doubleProto ≥ 0)
    else if r.shorthandAssign ≥ 0 then
      .error ⟨r.shorthandAssign,
        "Shorthand property assignments are valid only in destructuring patterns"⟩
    else if r.doubleProto ≥ 0 then
      .error ⟨r.doubleProto, "Redefinition of __proto__ property"⟩
    else .ok false

/- ----------------------------------------------------------------
   statement.js parseDoStatement tail + parseutil.js semicolon helpers
   (claim C10)
   ---------------------------------------------------------------- -/

/-- Token-interface state fragment used by the semicolon helpers: the
current token's type classified as `;`, `}` or EOF, and whether a line
break occurs between the previous token's end and the current token's
start (`lineBreak.test(this.input.slice(this.lastTokEnd, this.start))`). -/
structure SemiTokState where
  typeIsSemi : Bool
  typeIsBraceR : Bool
  typeIsEof : Bool
  newlineBefore : Bool
deriving Repr, DecidableEq

/-- `canInsertSemicolon()` (parseutil.js 70-74). -/
def canInsertSemicolon (st : SemiTokState) : Bool :=
  st.typeIsEof || st.typeIsBraceR || st.newlineBefore

/-- `insertSemicolon()` (parseutil.js 80-86); the observer callback has no
effect on the parse result. -/
def insertSemicolon (st : SemiTokState) : Bool :=
  canInsertSemicolon st

/-- `eat(tt.semi)` specialised to the semicolon token (parseutil.js 39-46):
returns whether it consumed, and the state after an eventual `next()`.
A consumed token is no longer the current one. -/
def eatSemi (st : SemiTokState) (after : SemiTokState) : Bool × SemiTokState :=
  if st.typeIsSemi then (true, after) else (false, st)

/-- `semicolon()` (parseutil.js 95-97): eat a `;` or allow ASI, else
`unexpected()` at the current position `pos`. -/
def semicolon (st : SemiTokState) (after : SemiTokState) (pos : Int) :
    Except PErr SemiTokState :=
  let (ate, st1) := eatSemi st after
  if ate then .ok st1
  else if insertSemicolon st then .ok st
  else .error ⟨pos, "Unexpected token"⟩

/-- Tail of `parseDoStatement` (statement.js 237-240): after the `while`
clause's closing parenthesis, `ecmaVersion >= 6` uses a plain `eat(tt.semi)`
while older versions run the full ASI rule `semicolon()`. -/
def parseDoStatementSemi (ecmaVersion : Nat) (st after : SemiTokState)
    (pos : Int) : Except PErr SemiTokState :=
  if ecmaVersion ≥ 6 then .ok (eatSemi st after).2
  else semicolon st after pos

/- ----------------------------------------------------------------
   statement.js: enterClassBody / exitClassBody, and the use-recording
   tail of parsePrivateIdent (part_004 1282-1300)  (claim C7)
   ---------------------------------------------------------------- -/

/-- A `#name` reference appended to a private-name frame's `used` list:
the `PrivateIdentifier` node's name and start offset. -/
structure PrivUse where
  name : String
  start : Int
deriving Repr, DecidableEq

/-- One frame of `privateNameStack`: `declared` is an own-property map
from name to slot string, `used` the list of references seen so far. -/
structure PrivFrame where
  declared : List (String × String)
  used : List PrivUse
deriving Repr, DecidableEq

/-- `hasOwn(declared, id.name)` on the association-list model of the
`Object.create(null)` declared map. -/
def hasOwnDeclared (declared : List (String × String)) (name : String) : Bool :=
  declared.any (fun p => p.1 == name)

/-- `privateNameStack`; the JS array grows at the end, the model keeps the
top of the stack at the head of the list (push = cons, pop = uncons). -/
structure PrivState where
  privateNameStack : List PrivFrame
deriving Repr, DecidableEq

/-- `enterClassBody()` (statement.js 977-981): pushes a fresh
`{declared: Object.create(null), used: []}` frame. -/
def enterClassBody (st : PrivState) : PrivState :=
  { privateNameStack := ⟨[], []⟩ :: st.privateNameStack }

/-- The private-field error message
`` `Private field '#${name}' must be declared in an enclosing class` ``. -/
def privateFieldErrMsg (name : String) : String :=
  "Private field \x27#" ++ name ++ "\x27 must be declared in an enclosing class"

/-- `exitClassBody()` (statement.js 987-1001): pops the top frame; every
used name not declared in it propagates to the parent frame's `used` (in
order), and with no parent frame the first such use raises
`Private field '#x' must be declared in an enclosing class` at its start.
(`raiseRecoverable` aborts in the base parser.)  The source never calls it
on an empty stack; that case is modelled as an error. -/
def exitClassBody (st : PrivState) : Except PErr PrivState :=
  match st.privateNameStack with
  | [] => .error ⟨0, "exitClassBody on empty stack"⟩
  | frame :: rest =>
    match rest with
    | [] =>
      match frame.used.find? (fun id => !hasOwnDeclared frame.declared id.name) with
      | some id => .error ⟨id.start, privateFieldErrMsg id.name⟩
      | none => .ok ⟨[]⟩
    | parent :: rest2 =>
      .ok ⟨{ parent with
              used := parent.used
                ++ frame.used.filter (fun id => !hasOwnDeclared frame.declared id.name) }
            :: rest2⟩

/-- Use-recording tail of `parsePrivateIdent` (part_004 1292-1297): once the
`PrivateIdentifier` node `(name, start)` is built, an empty
`privateNameStack` raises the same private-field message immediately;
otherwise the node is appended to the top frame's `used`. -/
def parsePrivateIdentRecord (st : PrivState) (name : String) (start : Int) :
    Except PErr PrivState :=
  match st.privateNameStack with
  | [] => .error ⟨start, privateFieldErrMsg name⟩
  | frame :: rest => .ok ⟨{ frame with used := frame.used ++ [⟨name, start⟩] } :: rest⟩

/- ----------------------------------------------------------------
   part_004: parseExprOps / parseExprOp / buildBinary over the binary
   operator tokens of tokentype.js (part_002)  (claim C3)
   ---------------------------------------------------------------- -/

/-- The binary-operator token types of tokentype.js (part_002 116-129 and
the keyword operators `in`/`instanceof`, 162-163); every one carries a
non-null `binop` precedence. -/
inductive OpK where
  | logicalOR | logicalAND | coalesce
  | bitwiseOR | bitwiseXOR | bitwiseAND
  | equality | relational | inOp | instanceofOp
  | bitShift | plusMin | modulo | star | slash
deriving Repr, DecidableEq

/-- `binop` precedences from tokentype.js: `||`:1, `&&`:2, `??`:1, `|`:3,
`^`:4, `&`:5, equality:6, relational and `in`/`instanceof`:7, shifts:8,
plus/minus:9, modulo, star and slash:10. -/
def OpK.binop : OpK → Int
  | .logicalOR => 1 | .logicalAND => 2 | .coalesce => 1
  | .bitwiseOR => 3 | .bitwiseXOR => 4 | .bitwiseAND => 5
  | .equality => 6 | .relational => 7 | .inOp => 7 | .instanceofOp => 7
  | .bitShift => 8 | .plusMin => 9 | .modulo => 10 | .star => 10 | .slash => 10

/-- A representative `this.value` operator text for each operator token. -/
def OpK.label : OpK → String
  | .logicalOR => "||" | .logicalAND => "&&" | .coalesce => "??"
  | .bitwiseOR => "|" | .bitwiseXOR => "^" | .bitwiseAND => "&"
  | .equality => "==" | .relational => "<" | .inOp => "in"
  | .instanceofOp => "instanceof" | .bitShift => "<<" | .plusMin => "+"
  | .modulo => "%" | .star => "*" | .slash => "/"

/-- Expression nodes produced by the precedence subparser: atoms delivered
by `parseMaybeUnary` (an atom may itself be a parenthesized expression such
as `(1 && 2)`, which `parseExprAtom` parses before `parseExprOp` runs), and
the `BinaryExpression`/`LogicalExpression`/`PrivateIdentifier` shapes that
`buildBinary` inspects and builds. -/
inductive BNode where
  | atom (name : String)
  | privateIdent (name : String)
  | binary (op : String) (left right : BNode)
  | logical (op : String) (left right : BNode)
deriving Repr, DecidableEq

/-- `buildBinary(startPos, startLoc, left, right, op, logical)`
(part_004 272-279): a `PrivateIdentifier` right operand is an error,
otherwise a `LogicalExpression` or `BinaryExpression` node. -/
def buildBinary (left right : BNode) (op : String) (logical : Bool) :
    Except PErr BNode :=
  match right with
  | .privateIdent _ =>
    .error ⟨0, "Private identifier can only be left side of binary expression"⟩
  | _ => .ok (if logical then .logical op left right else .binary op left right)

/-- Token stream fragment for the precedence subparser: operator tokens and
the atoms `parseMaybeUnary` returns.  Any other token (modelled by the end
of the list) has `binop == null` and stops `parseExprOp`. -/
inductive BTok where
  | opTok (k : OpK)
  | atomTok (a : BNode)
deriving Repr, DecidableEq

/-- `parseMaybeUnary` as used from `parseExprOp` (part_004 251), restricted
to the atomic fragment: it consumes one atom token. -/
def parseMaybeUnaryAtom (toks : List BTok) : Except PErr (BNode × List BTok) :=
  match toks with
  | .atomTok a :: rest => .ok (a, rest)
  | _ => .error ⟨0, "Unexpected token"⟩

/-- The `prec` adjustment of part_004 242-247: the precedence of
`tt.coalesce` is handled as equal to `tt.logicalAND.binop`, so that
`node.right` cannot contain logical expressions, for the mixing check. -/
def coalescedPrec (k : OpK) : Int :=
  if k == .coalesce then OpK.logicalAND.binop else k.binop

/-- Whether the current token makes the just-built node a forbidden mix
(part_004 253): `logical` followed by `??`, or `??` followed by
`||`/`&&`. -/
def mixedCoalesce (logical coalesce : Bool) (toks : List BTok) : Bool :=
  (logical && (toks.head? == some (.opTok .coalesce)))
    || (coalesce && ((toks.head? == some (.opTok .logicalOR))
          || (toks.head? == some (.opTok .logicalAND))))

/-- `parseExprOp(left, leftStartPos, leftStartLoc, minPrec, forInit)`
(part_004 236-260).  `forInit` truthiness suppresses the `in` operator.
Positions are elided (errors carry offset 0); recursion is by fuel, one
unit per recursive call of the source. -/
def parseExprOp (fuel : Nat) (left : BNode) (minPrec : Int) (forInit : Bool)
    (toks : List BTok) : Except PErr (BNode × List BTok) :=
  match fuel with
  | 0 => .error ⟨0, "out of fuel"⟩
  | fuel + 1 =>
    match toks with
    | .opTok k :: rest =>
      if !forInit || k != .inOp then
        if k.binop > minPrec then
          let logical := k == .logicalOR || k == .logicalAND
          let coalesce := k == .coalesce
          let prec := coalescedPrec k
          let op := k.label
          match parseMaybeUnaryAtom rest with
          | .error e => .error e
          | .ok (unary, toks1) =>
            match parseExprOp fuel unary prec forInit toks1 with
            | .error e => .error e
            | .ok (right, toks2) =>
              match buildBinary left right op (logical || coalesce) with
              | .error e => .error e
              | .ok node =>
                if mixedCoalesce logical coalesce toks2 then
                  .error ⟨0, "Logical expressions and coalesce expressions cannot be mixed. Wrap either by parentheses"⟩
                else
                  parseExprOp fuel node minPrec forInit toks2
        else .ok (left, toks)
      else .ok (left, toks)
    | _ => .ok (left, toks)

/-- `parseExprOps(forInit, refDestructuringErrors)` (part_004 214-219):
parse one unary operand, then climb with `minPrec = -1`.  (The
arrow-function early return and the destructuring-error bookkeeping do not
arise in the atomic fragment.) -/
def parseExprOps (fuel : Nat) (forInit : Bool) (toks : List BTok) :
    Except PErr (BNode × List BTok) :=
  match parseMaybeUnaryAtom toks with
  | .error e => .error e
  | .ok (expr, toks1) => parseExprOp fuel expr (-1) forInit toks1

/- ----------------------------------------------------------------
   part_004 290-355: parseMaybeUnary, its postfix loop, the `**` step,
   isPrivateFieldAccess, and the checkLValSimple cases it can reach
   (claim C4)
   ---------------------------------------------------------------- -/

/-- Nodes of the unary/update fragment.  (`ChainExpression` and
`ParenthesizedExpression` never reach this fragment's `checkLValSimple`
because its atoms are plain identifiers.) -/
inductive UNode where
  | ident (name : String)
  | member (obj : UNode) (propIsPrivate : Bool)
  | unary (op : String) (prefixFlag : Bool) (argument : UNode)
  | update (op : String) (prefixFlag : Bool) (argument : UNode)
  | binary (op : String) (left right : UNode)
deriving Repr, DecidableEq

/-- The `type` tag `finishNode` stamps on each node shape; the prefix
branch of `parseMaybeUnary` finishes with
`update ? nt.UpdateExpression : nt.UnaryExpression` (part_004 315) and the
postfix loop finishes with `nt.UnaryExpression` (part_004 335). -/
def UNode.typeName : UNode → String
  | .ident _ => "Identifier"
  | .member _ _ => "MemberExpression"
  | .unary _ _ _ => "UnaryExpression"
  | .update _ _ _ => "UpdateExpression"
  | .binary _ _ _ => "BinaryExpression"

/-- `isPrivateFieldAccess(node)` (part_004 350-355) on the fragment's node
alphabet (which has no `ChainExpression`). -/
def isPrivateFieldAccess : UNode → Bool
  | .member _ p => p
  | _ => false

/-- `checkLValSimple(expr)` with the default `bindingType = BIND_NONE`
(part_005 282-316) on the fragment's node alphabet: identifiers are
checked against `reservedWordsStrictBind` in strict mode (the regexp lives
in the out-of-scope `state.js`, so it is a parameter), member expressions
are fine assignment targets, everything else is `Assigning to rvalue`. -/
def checkLValSimpleNone (strict : Bool) (resBind : String → Bool) :
    UNode → Except PErr Unit
  | .ident name =>
    if strict && resBind name then
      .error ⟨0, "Assigning to " ++ name ++ " in strict mode"⟩
    else .ok ()
  | .member _ _ => .ok ()
  | _ => .error ⟨0, "Assigning to rvalue"⟩

/-- Token fragment for `parseMaybeUnary`: `tt.incDec` (both `prefix` and
`postfix`), the prefix-only operator tokens (`!`, `~`, unary `+`/`-`,
`typeof`, `void`, `delete`), atoms for `parseExprSubscripts`, `tt.starstar`
and a non-operator stop token.  Each token records whether a line break
precedes it (for `canInsertSemicolon`). -/
inductive UTok where
  | incDecTok (op : String) (nl : Bool)
  | prefixOpTok (op : String) (nl : Bool)
  | atomTok (name : String) (nl : Bool)
  | starstarTok (nl : Bool)
  | stopTok (nl : Bool)
deriving Repr, DecidableEq

/-- `canInsertSemicolon()` over the unary token fragment: EOF (end of the
list) or a preceding line break.  (No `}` token occurs in the fragment.) -/
def canInsertSemicolonU : List UTok → Bool
  | [] => true
  | .incDecTok _ nl :: _ => nl
  | .prefixOpTok _ nl :: _ => nl
  | .atomTok _ nl :: _ => nl
  | .starstarTok nl :: _ => nl
  | .stopTok nl :: _ => nl

/-- `parseExprSubscripts` (part_004 365-378) restricted to the atomic
fragment: consumes one atom into an `Identifier` node. -/
def parseExprSubscriptsAtom : List UTok → Except PErr (UNode × List UTok)
  | .atomTok n _ :: rest => .ok (.ident n, rest)
  | _ => .error ⟨0, "Unexpected token"⟩

/-- The postfix loop of `parseMaybeUnary` (part_004 327-336): while the
current token has `postfix` (only `tt.incDec` does) and no semicolon can be
inserted, validate the operand and wrap it — `finishNode(node,
nt.UnaryExpression)` with `prefix = false` (part_004 331, 335). -/
def postfixLoop (strict : Bool) (resBind : String → Bool) :
    UNode → List UTok → Except PErr (UNode × List UTok)
  | expr, .incDecTok op nl :: rest =>
    if !canInsertSemicolonU (.incDecTok op nl :: rest) then
      match checkLValSimpleNone strict resBind expr with
      | .error e => .error e
      | .ok _ => postfixLoop strict resBind (.unary op false expr) rest
    else .ok (expr, .incDecTok op nl :: rest)
  | expr, toks => .ok (expr, toks)

/-- The error chain run on a freshly parsed prefix operand
(part_004 304-314): `update` operators get `checkLValSimple`, `delete` gets
the strict-identifier and private-field checks, anything else sets
`sawUnary`.  Returns the resulting `sawUnary`. -/
def prefixOperandChecks (strict : Bool) (resBind : String → Bool)
    (update : Bool) (op : String) (sawUnary : Bool) (argument : UNode) :
    Except PErr Bool :=
  if update then
    match checkLValSimpleNone strict resBind argument with
    | .error e => .error e
    | .ok _ => .ok sawUnary
  else if strict && op == "delete" && argument.typeName == "Identifier" then
    .error ⟨0, "Deleting local variable in strict mode"⟩
  else if op == "delete" && isPrivateFieldAccess argument then
    .error ⟨0, "Private fields can not be deleted"⟩
  else .ok true

/-- `parseMaybeUnary(refDestructuringErrors, sawUnary, incDec, forInit)`
(part_004 290-347) over the fragment (the `await` and private-identifier
branches and `refDestructuringErrors` bookkeeping do not arise: the
destructuring record is `null` on this path, so `checkExpressionErrors`
is a no-op).  The trailing `**` step (part_004 339-346) is inlined as in
the source; `buildBinary` with a non-private right operand yields the
`BinaryExpression`.  Positions are elided; fuel decreases at each
recursive call of the source. -/
def parseMaybeUnary (fuel : Nat) (strict : Bool) (resBind : String → Bool)
    (sawUnary incDec : Bool) (toks : List UTok) :
    Except PErr (UNode × List UTok) :=
  match fuel with
  | 0 => .error ⟨0, "out of fuel"⟩
  | fuel + 1 =>
    let starstarStep := fun (sawU : Bool) (expr : UNode) (toks2 : List UTok) =>
      match toks2 with
      | .starstarTok _ :: rest2 =>
        if !incDec then
          if sawU then .error ⟨0, "Unexpected token"⟩
          else
            match parseMaybeUnary fuel strict resBind false false rest2 with
            | .error e => .error e
            | .ok (right, toks3) => .ok (UNode.binary "**" expr right, toks3)
        else .ok (expr, toks2)
      | _ => .ok (expr, toks2)
    match toks with
    | .incDecTok op _ :: rest =>
      match parseMaybeUnary fuel strict resBind true true rest with
      | .error e => .error e
      | .ok (argument, toks1) =>
        match prefixOperandChecks strict resBind true op sawUnary argument with
        | .error e => .error e
        | .ok sawU => starstarStep sawU (.update op true argument) toks1
    | .prefixOpTok op _ :: rest =>
      match parseMaybeUnary fuel strict resBind true false rest with
      | .error e => .error e
      | .ok (argument, toks1) =>
        match prefixOperandChecks strict resBind false op sawUnary argument with
        | .error e => .error e
        | .ok sawU => starstarStep sawU (.unary op true argument) toks1
    | _ =>
      match parseExprSubscriptsAtom toks with
      | .error e => .error e
      | .ok (expr0, toks1) =>
        match postfixLoop strict resBind expr0 toks1 with
        | .error e => .error e
        | .ok (expr, toks2) => starstarStep sawUnary expr toks2

/-- The token after an operand neither continues it with `**` nor with a
postfix `++`/`--` on the same line. -/
def quietAfter : List UTok → Bool
  | .starstarTok _ :: _ => false
  | .incDecTok _ nl :: _ => nl
  | _ => true

/- ----------------------------------------------------------------
   statement.js 48-70 isLet, the `let` dispatch head of parseStatement
   (statement.js 105-140) and the whitespace.js helpers  (claim C5)
   ---------------------------------------------------------------- -/

/-- The `\s` character class of the `skipWhiteSpace` regexp
(whitespace.js): JavaScript whitespace code units. -/
def isJsWhitespace (c : Nat) : Bool :=
  c == 32 || c == 9 || c == 10 || c == 11 || c == 12 || c == 13 || c == 0xa0
    || c == 0x1680 || (0x2000 ≤ c && c ≤ 0x200a) || c == 0x2028 || c == 0x2029
    || c == 0x202f || c == 0x205f || c == 0x3000 || c == 0xfeff

/-- The `.*` body of a `//` line comment: everything up to (excluding) the
next line terminator. -/
def countLineComment : List Nat → Nat
  | [] => 0
  | c :: rest =>
    if c == 10 || c == 13 || c == 0x2028 || c == 0x2029 then 0
    else 1 + countLineComment rest

/-- The lazily matched body-plus-terminator of a `/* ... */` comment:
length up to and including the first `*/`, or `none` when unterminated
(in which case the regexp alternative fails and skipping stops). -/
def countBlockComment : List Nat → Option Nat
  | 42 :: 47 :: _ => some 2
  | _ :: rest => (countBlockComment rest).map (· + 1)
  | [] => none

/-- `skipWhiteSpace` (whitespace.js): the length matched by
`(?:\s|\x2f\x2f.*|\x2f\x2a[^]*?\x2a\x2f)*` at the head of the list.  Fuel
is the input length; every round consumes at least one code unit. -/
def skipWS : Nat → List Nat → Nat
  | 0, _ => 0
  | _, [] => 0
  | fuel + 1, 47 :: 47 :: rest =>
    let k := countLineComment rest
    2 + k + skipWS fuel (rest.drop k)
  | fuel + 1, 47 :: 42 :: rest =>
    (match countBlockComment rest with
     | some k => 2 + k + skipWS fuel (rest.drop k)
     | none => 0)
  | fuel + 1, c :: rest =>
    if isJsWhitespace c then 1 + skipWS fuel rest else 0

/-- Modelled from the spec: `isIdentifierStart` lives in `identifier.js`,
which is not under src/ — the spec lists the Unicode identifier tables as
an out-of-scope external collaborator.  The model is exact on the ASCII
range (`$`, letters, `_`) and treats the table-driven non-ASCII code units
as non-identifier characters. -/
def isIdentifierStart (code : Nat) (_astral : Bool) : Bool :=
  if code < 65 then code == 36
  else if code < 91 then true
  else if code < 97 then code == 95
  else if code < 123 then true
  else false

/-- Modelled from the spec: `isIdentifierChar` of the missing
`identifier.js`, exact on the ASCII range (adds the digits). -/
def isIdentifierChar (code : Nat) (astral : Bool) : Bool :=
  if code < 48 then code == 36
  else if code < 58 then true
  else isIdentifierStart code astral


/-- Modelled from the spec: `keywordRelationalOperator` of the missing
`identifier.js` matches exactly the keyword relational operators `in` and
`instanceof` (code-unit lists). -/
def keywordRelationalOperator (s : List Nat) : Bool :=
  s == [105, 110] || s == [105, 110, 115, 116, 97, 110, 99, 101, 111, 102]

/-- The identifier scan of isLet (statement.js 63-64): how many further
`isIdentifierChar` code units follow the identifier-start. -/
def scanIdentLen : List Nat → Nat
  | [] => 0
  | c :: rest => if isIdentifierChar c true then 1 + scanIdentLen rest else 0

/-- Parser state consumed by `isLet`: version, the current token's
name-token/value/escape classification (for `isContextual("let")`), the
statement `context`, the input as UTF-16 code units and `this.pos` (the
scan position after the current token). -/
structure LetState where
  ecmaVersion : Nat
  typeIsName : Bool
  value : String
  containsEsc : Bool
  context : Option String
  input : List Nat
  pos : Nat
deriving Repr, DecidableEq

/-- `isContextual("let")` (parseutil.js 50-52). -/
def isContextualLet (st : LetState) : Bool :=
  st.typeIsName && st.value == "let" && !st.containsEsc

/-- `isLet(context)` (statement.js 48-70): after the guards, look at the
first code unit past the whitespace: `[` (91) or `\` (92) mean a
declaration regardless of `context`; a non-null `context` otherwise forces
statement-only; then `{` (123), an astral half, or an identifier whose
scan ends in `\`/astral or whose text is not `in`/`instanceof` mean a
declaration. -/
def isLet (st : LetState) : Bool :=
  if st.ecmaVersion < 6 || !isContextualLet st then false
  else
    let next := st.pos + skipWS st.input.length (st.input.drop st.pos)
    let nextCh := (st.input.get? next).getD 0
    if nextCh == 91 || nextCh == 92 then true
    else if st.context.isSome then false
    else if nextCh == 123 || (0xd7ff < nextCh && nextCh < 0xdc00) then true
    else if isIdentifierStart nextCh true then
      let identLen := scanIdentLen (st.input.drop (next + 1))
      let afterCh := (st.input.get? (next + 1 + identLen)).getD 0
      if afterCh == 92 || (0xd7ff < afterCh && afterCh < 0xdc00) then true
      else !keywordRelationalOperator ((st.input.drop next).take (1 + identLen))
    else false

/-- Where the `let` head of `parseStatement` routes (statement.js 106-112
and the `tt._var` case 137-140): `isLet(context)` turns the statement into
a declaration with `kind = "let"`, which `unexpected()`s when `context` is
non-null; otherwise the normal `starttype` dispatch continues (expression
statement for an identifier `let`). -/
inductive LetDispatch where
  | declaration (kind : String)
  | declarationError
  | other
deriving Repr, DecidableEq

/-- The `let` dispatch of `parseStatement` on a `LetState`. -/
def parseStatementLetDispatch (st : LetState) : LetDispatch :=
  if isLet st then
    if st.context.isSome then .declarationError else .declaration "let"
  else .other

/-- The amended decision rule, written from the amended claim's words: the
guards must pass; `let` is treated as a declaration head when the next
code unit is `[` or `\` regardless of `context`; with `context` null it
additionally is one when the next code unit is `{`, an astral half, or
starts an identifier that ends in `\`/astral or whose text is not a
keyword relational operator. -/
def letDeclSpec (st : LetState) : Bool :=
  (st.ecmaVersion ≥ 6 && isContextualLet st)
    &&
    (let next := st.pos + skipWS st.input.length (st.input.drop st.pos)
     let nextCh := (st.input.get? next).getD 0
     nextCh == 91 || nextCh == 92
       || (st.context.isNone
            && (nextCh == 123 || (0xd7ff < nextCh && nextCh < 0xdc00)
                || (isIdentifierStart nextCh true
                    && (let identLen := scanIdentLen (st.input.drop (next + 1))
                        let afterCh := (st.input.get? (next + 1 + identLen)).getD 0
                        afterCh == 92 || (0xd7ff < afterCh && afterCh < 0xdc00)
                          || !keywordRelationalOperator
                              ((st.input.drop next).take (1 + identLen)))))))

/-- UTF-16 code units of an ASCII string, for concrete inputs. -/
def codes (s : String) : List Nat :=
  s.toList.map Char.toNat

/- ----------------------------------------------------------------
   part_005: the assignable-converter and lvalue-checker machinery,
   over the uniform AST node record  (claims C1, C9, C8)
   ---------------------------------------------------------------- -/

/-- The uniform AST node record: a `type` tag, `start`/`end` offsets and the
tag-specific fields the assignable/lvalue machinery touches (`end` is spelt
`nend`, and absent fields are `none`/`[]`, matching JS `undefined`). -/
inductive LNode where
  | mk (type : String) (start nend : Nat) (name kind : String)
       (operator : Option String)
       (properties : List LNode) (elements : List (Option LNode))
       (argument left right value expression key : Option LNode)
deriving Repr

def LNode.type : LNode → String
  | .mk t _ _ _ _ _ _ _ _ _ _ _ _ _ => t

def LNode.start : LNode → Nat
  | .mk _ s _ _ _ _ _ _ _ _ _ _ _ _ => s

def LNode.nend : LNode → Nat
  | .mk _ _ e _ _ _ _ _ _ _ _ _ _ _ => e

def LNode.name : LNode → String
  | .mk _ _ _ n _ _ _ _ _ _ _ _ _ _ => n

def LNode.kind : LNode → String
  | .mk _ _ _ _ k _ _ _ _ _ _ _ _ _ => k

def LNode.operator : LNode → Option String
  | .mk _ _ _ _ _ o _ _ _ _ _ _ _ _ => o

def LNode.properties : LNode → List LNode
  | .mk _ _ _ _ _ _ ps _ _ _ _ _ _ _ => ps

def LNode.elements : LNode → List (Option LNode)
  | .mk _ _ _ _ _ _ _ es _ _ _ _ _ _ => es

def LNode.argument : LNode → Option LNode
  | .mk _ _ _ _ _ _ _ _ a _ _ _ _ _ => a

def LNode.left : LNode → Option LNode
  | .mk _ _ _ _ _ _ _ _ _ l _ _ _ _ => l

def LNode.right : LNode → Option LNode
  | .mk _ _ _ _ _ _ _ _ _ _ r _ _ _ => r

def LNode.value : LNode → Option LNode
  | .mk _ _ _ _ _ _ _ _ _ _ _ v _ _ => v

def LNode.expression : LNode → Option LNode
  | .mk _ _ _ _ _ _ _ _ _ _ _ _ x _ => x

def LNode.key : LNode → Option LNode
  | .mk _ _ _ _ _ _ _ _ _ _ _ _ _ k => k

/-- `node.type = t` (the in-place tag mutation, modelled functionally). -/
def LNode.withType : LNode → String → LNode
  | .mk _ s e n k o ps es a l r v x ky, t => .mk t s e n k o ps es a l r v x ky

/-- `node.operator = o` / `delete node.operator` (with `none`). -/
def LNode.withOperator : LNode → Option String → LNode
  | .mk t s e n k _ ps es a l r v x ky, o => .mk t s e n k o ps es a l r v x ky

def LNode.withProperties : LNode → List LNode → LNode
  | .mk t s e n k o _ es a l r v x ky, ps => .mk t s e n k o ps es a l r v x ky

def LNode.withElements : LNode → List (Option LNode) → LNode
  | .mk t s e n k o ps _ a l r v x ky, es => .mk t s e n k o ps es a l r v x ky

def LNode.withArgument : LNode → Option LNode → LNode
  | .mk t s e n k o ps es _ l r v x ky, a => .mk t s e n k o ps es a l r v x ky

def LNode.withLeft : LNode → Option LNode → LNode
  | .mk t s e n k o ps es a _ r v x ky, l => .mk t s e n k o ps es a l r v x ky

def LNode.withValue : LNode → Option LNode → LNode
  | .mk t s e n k o ps es a l r _ x ky, v => .mk t s e n k o ps es a l r v x ky

def LNode.withExpression : LNode → Option LNode → LNode
  | .mk t s e n k o ps es a l r v _ ky, x => .mk t s e n k o ps es a l r v x ky

/-- A node with tag `t` and positions only; all other fields absent. -/
def LNode.bare (t : String) (s e : Nat) : LNode :=
  .mk t s e "" "" none [] [] none none none none none none

/-- An `Identifier` node. -/
def LNode.identN (nm : String) (s e : Nat) : LNode :=
  .mk "Identifier" s e nm "" none [] [] none none none none none none

/-- Parser state consulted by `toAssignable`. -/
structure PState where
  ecmaVersion : Nat
  inAsync : Bool
deriving Repr, DecidableEq

mutual

/-- `toAssignable(node, isBinding, refDestructuringErrors)` (part_005
17-92): the `this.options.ecmaVersion >= 6 && node` guard around the tag
switch; otherwise `checkPatternErrors(refDestructuringErrors, true)` runs
and the node is returned unchanged.  Fuel-indexed (the source recursion is
structural); a call with `none` mirrors passing a nullish node. -/
def toAssignable (fuel : Nat) (st : PState) (node : Option LNode)
    (isBinding : Bool) (refDestructuringErrors : Option DestructuringErrors) :
    Except PErr (Option LNode) :=
  match fuel with
  | 0 => .error ⟨0, "out of fuel"⟩
  | fuel + 1 =>
    match node with
    | some n =>
      if st.ecmaVersion ≥ 6 then
        match toAssignableCases fuel st n isBinding refDestructuringErrors with
        | .error e => .error e
        | .ok n2 => .ok (some n2)
      else
        match checkPatternErrors refDestructuringErrors true with
        | .error e => .error e
        | .ok _ => .ok (some n)
    | none =>
      match checkPatternErrors refDestructuringErrors true with
      | .error e => .error e
      | .ok _ => .ok none

/-- The tag switch of `toAssignable` (part_005 19-89), one case per
source `case` label. -/
def toAssignableCases (fuel : Nat) (st : PState) (n : LNode) (isBinding : Bool)
    (refDestructuringErrors : Option DestructuringErrors) : Except PErr LNode :=
  match fuel with
  | 0 => .error ⟨0, "out of fuel"⟩
  | fuel + 1 =>
    match n.type with
    | "Identifier" =>
      if st.inAsync && n.name == "await" then
        .error ⟨n.start, "Cannot use \x27await\x27 as identifier inside an async function"⟩
      else .ok n
    | "ObjectPattern" => .ok n
    | "ArrayPattern" => .ok n
    | "AssignmentPattern" => .ok n
    | "RestElement" => .ok n
    | "ObjectExpression" =>
      let n1 := n.withType "ObjectPattern"
      (match checkPatternErrors refDestructuringErrors true with
       | .error e => .error e
       | .ok _ =>
         match toAssignableProps fuel st isBinding n1.properties with
         | .error e => .error e
         | .ok props => .ok (n1.withProperties props))
    | "Property" =>
      if n.kind != "init" then
        .error ⟨((n.key.map (fun k => (k.start : Int))).getD 0),
          "Object pattern can\x27t contain getter or setter"⟩
      else
        match toAssignable fuel st n.value isBinding none with
        | .error e => .error e
        | .ok v => .ok (n.withValue v)
    | "ArrayExpression" =>
      let n1 := n.withType "ArrayPattern"
      (match checkPatternErrors refDestructuringErrors true with
       | .error e => .error e
       | .ok _ =>
         match toAssignableList fuel st n1.elements isBinding with
         | .error e => .error e
         | .ok els => .ok (n1.withElements els))
    | "SpreadElement" =>
      let n1 := n.withType "RestElement"
      (match toAssignable fuel st n1.argument isBinding none with
       | .error e => .error e
       | .ok arg =>
         match arg with
         | some a =>
           if a.type == "AssignmentPattern" then
             .error ⟨a.start, "Rest elements cannot have a default value"⟩
           else .ok (n1.withArgument (some a))
         | none => .ok (n1.withArgument none))
    | "AssignmentExpression" =>
      if n.operator != some "=" then
        .error ⟨((n.left.map (fun l => (l.nend : Int))).getD 0),
          "Only \x27=\x27 operator can be used for specifying default value."⟩
      else
        let n1 := (n.withType "AssignmentPattern").withOperator none
        (match toAssignable fuel st n1.left isBinding none with
         | .error e => .error e
         | .ok l => .ok (n1.withLeft l))
    | "ParenthesizedExpression" =>
      (match toAssignable fuel st n.expression isBinding refDestructuringErrors with
       | .error e => .error e
       | .ok ex => .ok (n.withExpression ex))
    | "ChainExpression" =>
      .error ⟨n.start, "Optional chaining cannot appear in left-hand side"⟩
    | "MemberExpression" =>
      if !isBinding then .ok n
      else .error ⟨n.start, "Assigning to rvalue"⟩
    | _ => .error ⟨n.start, "Assigning to rvalue"⟩

/-- The property loop of the `ObjectExpression` case (part_005 34-47),
including the rest-property early error.  `toAssignable` on a present node
always returns a present node, so the `getD` padding is unreachable. -/
def toAssignableProps (fuel : Nat) (st : PState) (isBinding : Bool) :
    List LNode → Except PErr (List LNode)
  | [] => .ok []
  | p :: rest =>
    match fuel with
    | 0 => .error ⟨0, "out of fuel"⟩
    | fuel + 1 =>
      match toAssignable fuel st (some p) isBinding none with
      | .error e => .error e
      | .ok pr =>
        let p2 := pr.getD p
        if p2.type == "RestElement"
            && (((p2.argument.map LNode.type).getD "" == "ArrayPattern")
                || ((p2.argument.map LNode.type).getD "" == "ObjectPattern")) then
          .error ⟨((p2.argument.map (fun a => (a.start : Int))).getD 0), "Unexpected token"⟩
        else
          match toAssignableProps fuel st isBinding rest with
          | .error e => .error e
          | .ok rest2 => .ok (p2 :: rest2)

/-- The element loop of `toAssignableList` (part_005 97-101):
`if (elt) this.toAssignable(elt, isBinding)` — null elisions pass through
untouched. -/
def toAssignableElems (fuel : Nat) (st : PState) (isBinding : Bool) :
    List (Option LNode) → Except PErr (List (Option LNode))
  | [] => .ok []
  | elt :: rest =>
    match fuel with
    | 0 => .error ⟨0, "out of fuel"⟩
    | fuel + 1 =>
      match elt with
      | some e =>
        (match toAssignable fuel st (some e) isBinding none with
         | .error er => .error er
         | .ok e2 =>
           match toAssignableElems fuel st isBinding rest with
           | .error er => .error er
           | .ok rest2 => .ok (e2 :: rest2))
      | none =>
        match toAssignableElems fuel st isBinding rest with
        | .error er => .error er
        | .ok rest2 => .ok (none :: rest2)

/-- `toAssignableList(exprList, isBinding)` (part_005 96-108): the element
loop, then the ES6 rest-binding check on the (converted) last element. -/
def toAssignableList (fuel : Nat) (st : PState)
    (exprList : List (Option LNode)) (isBinding : Bool) :
    Except PErr (List (Option LNode)) :=
  match fuel with
  | 0 => .error ⟨0, "out of fuel"⟩
  | fuel + 1 =>
    match toAssignableElems fuel st isBinding exprList with
    | .error e => .error e
    | .ok lst =>
      if exprList.length != 0 then
        match lst.getLast? with
        | some (some last) =>
          if st.ecmaVersion == 6 && isBinding && last.type == "RestElement" then
            match last.argument with
            | some a =>
              if a.type != "Identifier" then .error ⟨a.start, "Unexpected token"⟩
              else .ok lst
            | none => .ok lst
          else .ok lst
        | _ => .ok lst
      else .ok lst

end

/-- Binding kinds (`scopeflags.js` is not under src/).  Modelled from the
spec: section 4.C6 lists `NONE` (assignment target), `VAR`, `LEXICAL`,
`FUNCTION`, `OUTSIDE`, `SIMPLE_CATCH`. -/
inductive BindKind where
  | bindNone | bindVar | bindLexical | bindFunction | bindOutside | bindSimpleCatch
deriving Repr, DecidableEq

/-- Context consumed by the lvalue checkers: the `strict` flag, the
`reservedWordsStrictBind` regexp (built in the out-of-scope `state.js`,
hence a parameter) and `declareName` (the scope machinery of the missing
`scope.js`; modelled from the spec as an oracle that may reject a
declaration with an error). -/
structure LvalCtx where
  strict : Bool
  reservedWordsStrictBind : String → Bool
  declareName : String → BindKind → Nat → Option PErr

mutual

/-- `checkLValSimple(expr, bindingType = BIND_NONE, checkClashes)`
(part_005 282-316).  The mutable `checkClashes` table is threaded through
and returned; `declareName` is the scope oracle. -/
def checkLValSimple (fuel : Nat) (ctx : LvalCtx) (expr : LNode)
    (bindingType : BindKind) (checkClashes : Option (List String)) :
    Except PErr (Option (List String)) :=
  match fuel with
  | 0 => .error ⟨0, "out of fuel"⟩
  | fuel + 1 =>
    let isBind := bindingType != .bindNone
    match expr.type with
    | "Identifier" =>
      if ctx.strict && ctx.reservedWordsStrictBind expr.name then
        .error ⟨expr.start,
          (if isBind then "Binding " else "Assigning to ") ++ expr.name ++ " in strict mode"⟩
      else if isBind then
        if bindingType == .bindLexical && expr.name == "let" then
          .error ⟨expr.start, "let is disallowed as a lexically bound name"⟩
        else
          match checkClashes with
          | some cl =>
            if cl.contains expr.name then
              .error ⟨expr.start, "Argument name clash"⟩
            else
              let cl2 := cl ++ [expr.name]
              if bindingType != .bindOutside then
                match ctx.declareName expr.name bindingType expr.start with
                | some e => .error e
                | none => .ok (some cl2)
              else .ok (some cl2)
          | none =>
            if bindingType != .bindOutside then
              match ctx.declareName expr.name bindingType expr.start with
              | some e => .error e
              | none => .ok none
            else .ok none
      else .ok checkClashes
    | "ChainExpression" =>
      .error ⟨expr.start, "Optional chaining cannot appear in left-hand side"⟩
    | "MemberExpression" =>
      if isBind then .error ⟨expr.start, "Binding member expression"⟩
      else .ok checkClashes
    | "ParenthesizedExpression" =>
      if isBind then .error ⟨expr.start, "Binding parenthesized expression"⟩
      else
        match expr.expression with
        | some inner => checkLValSimple fuel ctx inner bindingType checkClashes
        | none => .error ⟨expr.start, "Assigning to rvalue"⟩
    | _ =>
      .error ⟨expr.start,
        (if isBind then "Binding" else "Assigning to") ++ " rvalue"⟩

/-- `checkLValPattern(expr, bindingType, checkClashes)` (part_005 324-341):
object and array patterns recurse through their members — null array
elements are skipped (`if (elem) ...`) — everything else goes to
`checkLValSimple`. -/
def checkLValPattern (fuel : Nat) (ctx : LvalCtx) (expr : LNode)
    (bindingType : BindKind) (checkClashes : Option (List String)) :
    Except PErr (Option (List String)) :=
  match fuel with
  | 0 => .error ⟨0, "out of fuel"⟩
  | fuel + 1 =>
    match expr.type with
    | "ObjectPattern" => checkLValProps fuel ctx expr.properties bindingType checkClashes
    | "ArrayPattern" => checkLValElems fuel ctx expr.elements bindingType checkClashes
    | _ => checkLValSimple fuel ctx expr bindingType checkClashes

/-- `checkLValInnerPattern(expr, bindingType, checkClashes)`
(part_005 343-361). -/
def checkLValInnerPattern (fuel : Nat) (ctx : LvalCtx) (expr : LNode)
    (bindingType : BindKind) (checkClashes : Option (List String)) :
    Except PErr (Option (List String)) :=
  match fuel with
  | 0 => .error ⟨0, "out of fuel"⟩
  | fuel + 1 =>
    match expr.type with
    | "Property" =>
      (match expr.value with
       | some v => checkLValInnerPattern fuel ctx v bindingType checkClashes
       | none => .error ⟨expr.start, "Assigning to rvalue"⟩)
    | "AssignmentPattern" =>
      (match expr.left with
       | some l => checkLValPattern fuel ctx l bindingType checkClashes
       | none => .error ⟨expr.start, "Assigning to rvalue"⟩)
    | "RestElement" =>
      (match expr.argument with
       | some a => checkLValPattern fuel ctx a bindingType checkClashes
       | none => .error ⟨expr.start, "Assigning to rvalue"⟩)
    | _ => checkLValPattern fuel ctx expr bindingType checkClashes

/-- The `ObjectPattern` property loop of `checkLValPattern`
(part_005 326-330). -/
def checkLValProps (fuel : Nat) (ctx : LvalCtx) (props : List LNode)
    (bindingType : BindKind) (checkClashes : Option (List String)) :
    Except PErr (Option (List String)) :=
  match fuel with
  | 0 => .error ⟨0, "out of fuel"⟩
  | fuel + 1 =>
    match props with
    | [] => .ok checkClashes
    | p :: rest =>
      match checkLValInnerPattern fuel ctx p bindingType checkClashes with
      | .error e => .error e
      | .ok cc2 => checkLValProps fuel ctx rest bindingType cc2

/-- The `ArrayPattern` element loop of `checkLValPattern`
(part_005 332-336): `if (elem) this.checkLValInnerPattern(elem, ...)` —
null elisions are skipped without any check. -/
def checkLValElems (fuel : Nat) (ctx : LvalCtx) (elems : List (Option LNode))
    (bindingType : BindKind) (checkClashes : Option (List String)) :
    Except PErr (Option (List String)) :=
  match fuel with
  | 0 => .error ⟨0, "out of fuel"⟩
  | fuel + 1 =>
    match elems with
    | [] => .ok checkClashes
    | some e :: rest =>
      (match checkLValInnerPattern fuel ctx e bindingType checkClashes with
       | .error er => .error er
       | .ok cc2 => checkLValElems fuel ctx rest bindingType cc2)
    | none :: rest => checkLValElems fuel ctx rest bindingType checkClashes

end

/-- `checkExport(exports, name, pos)` (statement.js 1120-1127): no record
means no bookkeeping; a duplicate name is a recoverable error; otherwise
the name is recorded. -/
def checkExport (exports : Option (List String)) (name : String) (pos : Nat) :
    Except PErr (Option (List String)) :=
  match exports with
  | none => .ok none
  | some ex =>
    if ex.contains name then
      .error ⟨pos, "Duplicate export \x27" ++ name ++ "\x27"⟩
    else .ok (some (ex ++ [name]))

mutual

/-- `checkPatternExport(exports, pat)` (statement.js 1134-1153): records
every identifier bound by the pattern, recursing through the pattern
alphabet; null array elements are skipped (`if (elt) ...`). -/
def checkPatternExport (fuel : Nat) (exports : Option (List String))
    (pat : LNode) : Except PErr (Option (List String)) :=
  match fuel with
  | 0 => .error ⟨0, "out of fuel"⟩
  | fuel + 1 =>
    let type := pat.type
    if type == "Identifier" then checkExport exports pat.name pat.start
    else if type == "ObjectPattern" then
      checkPatternExportProps fuel exports pat.properties
    else if type == "ArrayPattern" then
      checkPatternExportElems fuel exports pat.elements
    else if type == "Property" then
      (match pat.value with
       | some v => checkPatternExport fuel exports v
       | none => .ok exports)
    else if type == "AssignmentPattern" then
      (match pat.left with
       | some l => checkPatternExport fuel exports l
       | none => .ok exports)
    else if type == "RestElement" then
      (match pat.argument with
       | some a => checkPatternExport fuel exports a
       | none => .ok exports)
    else if type == "ParenthesizedExpression" then
      (match pat.expression with
       | some x => checkPatternExport fuel exports x
       | none => .ok exports)
    else .ok exports

/-- The `ObjectPattern` property loop of `checkPatternExport`
(statement.js 1138-1140). -/
def checkPatternExportProps (fuel : Nat) (exports : Option (List String))
    (props : List LNode) : Except PErr (Option (List String)) :=
  match fuel with
  | 0 => .error ⟨0, "out of fuel"⟩
  | fuel + 1 =>
    match props with
    | [] => .ok exports
    | p :: rest =>
      match checkPatternExport fuel exports p with
      | .error e => .error e
      | .ok ex2 => checkPatternExportProps fuel ex2 rest

/-- The `ArrayPattern` element loop of `checkPatternExport`
(statement.js 1141-1144): null elisions are skipped. -/
def checkPatternExportElems (fuel : Nat) (exports : Option (List String))
    (elems : List (Option LNode)) : Except PErr (Option (List String)) :=
  match fuel with
  | 0 => .error ⟨0, "out of fuel"⟩
  | fuel + 1 =>
    match elems with
    | [] => .ok exports
    | some e :: rest =>
      (match checkPatternExport fuel exports e with
       | .error er => .error er
       | .ok ex2 => checkPatternExportElems fuel ex2 rest)
    | none :: rest => checkPatternExportElems fuel exports rest

end

/- ----------------------------------------------------------------
   part_004 1193-1214 parseExprList and part_005 112-130, 161-189
   parseSpread / parseRestBinding / parseBindingList, over an atomic
   token fragment  (claim C9)
   ---------------------------------------------------------------- -/

/-- Token fragment for the element-list parsers: the list's closing token,
commas, `...`, and name atoms (the fragment's only expressions and binding
atoms).  Positions are elided. -/
inductive ETok where
  | commaT | closeT | ellipsisT | nameT (s : String)
deriving Repr, DecidableEq

/-- `parseMaybeAssign` as called from `parseExprList` (part_004 1209), on
the atomic fragment: one name atom becomes an `Identifier` node. -/
def parseMaybeAssignAtomE (toks : List ETok) : Except PErr (LNode × List ETok) :=
  match toks with
  | .nameT s :: rest => .ok (LNode.identN s 0 0, rest)
  | _ => .error ⟨0, "Unexpected token"⟩

/-- `parseSpread(refDestructuringErrors)` (part_005 112-117): consume the
`...`, parse the argument, finish a `SpreadElement`. -/
def parseSpreadE (toks : List ETok) : Except PErr (LNode × List ETok) :=
  match toks with
  | .ellipsisT :: rest =>
    (match parseMaybeAssignAtomE rest with
     | .error e => .error e
     | .ok (arg, rest2) =>
       .ok ((LNode.bare "SpreadElement" 0 0).withArgument (some arg), rest2))
  | _ => .error ⟨0, "Unexpected token"⟩

/-- `parseExprList(close, allowTrailingComma, allowEmpty,
refDestructuringErrors)` (part_004 1193-1214), with the mutable
destructuring record threaded through: an elision (`allowEmpty` and the
current token a comma) pushes `null`; a spread may record a delayed
`trailingComma` offense; anything else is `parseMaybeAssign`.  The `first`
flag distinguishes the first round of the source's `while` loop. -/
def parseExprList (fuel : Nat) (allowTrailingComma allowEmpty first : Bool)
    (refErrs : Option DestructuringErrors) (toks : List ETok) :
    Except PErr (List (Option LNode) × Option DestructuringErrors × List ETok) :=
  match fuel with
  | 0 => .error ⟨0, "out of fuel"⟩
  | fuel + 1 =>
    match toks with
    | .closeT :: rest => .ok ([], refErrs, rest)
    | _ =>
      let step : Except PErr (Bool × List ETok) :=
        if !first then
          match toks with
          | .commaT :: rest1 =>
            if allowTrailingComma then
              match rest1 with
              | .closeT :: rest2 => .ok (true, rest2)
              | _ => .ok (false, rest1)
            else .ok (false, rest1)
          | _ => .error ⟨0, "Unexpected token"⟩
        else .ok (false, toks)
      match step with
      | .error e => .error e
      | .ok (true, rest2) => .ok ([], refErrs, rest2)
      | .ok (false, toks1) =>
        if allowEmpty && toks1.head? == some .commaT then
          match parseExprList fuel allowTrailingComma allowEmpty false refErrs toks1 with
          | .error e => .error e
          | .ok (elts, r2, rest) => .ok (none :: elts, r2, rest)
        else
          match toks1 with
          | .ellipsisT :: _ =>
            (match parseSpreadE toks1 with
             | .error e => .error e
             | .ok (sp, toks2) =>
               let refErrs2 :=
                 match refErrs with
                 | some r =>
                   if toks2.head? == some .commaT && r.trailingComma < 0 then
                     some { r with trailingComma := 0 }
                   else some r
                 | none => none
               match parseExprList fuel allowTrailingComma allowEmpty false refErrs2 toks2 with
               | .error e => .error e
               | .ok (elts, r2, rest) => .ok (some sp :: elts, r2, rest))
          | _ =>
            match parseMaybeAssignAtomE toks1 with
            | .error e => .error e
            | .ok (elt, toks2) =>
              match parseExprList fuel allowTrailingComma allowEmpty false refErrs toks2 with
              | .error e => .error e
              | .ok (elts, r2, rest) => .ok (some elt :: elts, r2, rest)

/-- `parseBindingAtom()` (part_005 137-151) on the atomic fragment:
a name atom becomes an `Identifier`.  `parseMaybeDefault` (part_005
203-210) adds nothing here since the fragment has no `=` token. -/
def parseBindingAtomE (toks : List ETok) : Except PErr (LNode × List ETok) :=
  match toks with
  | .nameT s :: rest => .ok (LNode.identN s 0 0, rest)
  | _ => .error ⟨0, "Unexpected token"⟩

/-- `parseRestBinding()` (part_005 120-130): consume `...`; for
`ecmaVersion === 6` the rest argument must be a plain name token;
the argument comes from `parseBindingAtom`. -/
def parseRestBinding (ecmaVersion : Nat) (toks : List ETok) :
    Except PErr (LNode × List ETok) :=
  match toks with
  | .ellipsisT :: rest =>
    if ecmaVersion == 6 && !(match rest with | .nameT _ :: _ => true | _ => false) then
      .error ⟨0, "Unexpected token"⟩
    else
      (match parseBindingAtomE rest with
       | .error e => .error e
       | .ok (arg, rest2) =>
         .ok ((LNode.bare "RestElement" 0 0).withArgument (some arg), rest2))
  | _ => .error ⟨0, "Unexpected token"⟩

/-- `parseBindingList(close, allowEmpty, allowTrailingComma)`
(part_005 161-189): an elision (`allowEmpty` and a comma) pushes `null`; a
trailing comma stops; `...` parses a rest binding after which a comma is an
error and the close must follow; anything else is `parseMaybeDefault`. -/
def parseBindingList (fuel : Nat) (ecmaVersion : Nat)
    (allowEmpty allowTrailingComma first : Bool) (toks : List ETok) :
    Except PErr (List (Option LNode) × List ETok) :=
  match fuel with
  | 0 => .error ⟨0, "out of fuel"⟩
  | fuel + 1 =>
    match toks with
    | .closeT :: rest => .ok ([], rest)
    | _ =>
      let step : Except PErr (List ETok) :=
        if first then .ok toks
        else
          match toks with
          | .commaT :: rest1 => .ok rest1
          | _ => .error ⟨0, "Unexpected token"⟩
      match step with
      | .error e => .error e
      | .ok toks1 =>
        if allowEmpty && toks1.head? == some .commaT then
          match parseBindingList fuel ecmaVersion allowEmpty allowTrailingComma false toks1 with
          | .error e => .error e
          | .ok (elts, rest) => .ok (none :: elts, rest)
        else if allowTrailingComma && toks1.head? == some .closeT then
          .ok ([], toks1.tail)
        else
          match toks1 with
          | .ellipsisT :: _ =>
            (match parseRestBinding ecmaVersion toks1 with
             | .error e => .error e
             | .ok (rst, toks2) =>
               if toks2.head? == some .commaT then
                 .error ⟨0, "Comma is not permitted after the rest element"⟩
               else
                 match toks2 with
                 | .closeT :: rest3 => .ok ([some rst], rest3)
                 | _ => .error ⟨0, "Unexpected token"⟩)
          | _ =>
            match parseBindingAtomE toks1 with
            | .error e => .error e
            | .ok (elem, toks2) =>
              match parseBindingList fuel ecmaVersion allowEmpty allowTrailingComma false toks2 with
              | .error e => .error e
              | .ok (elts, rest) => .ok (some elem :: elts, rest)

/- ----------------------------------------------------------------
   statement.js 617-647: parseVar / parseVarId over a token fragment
   (claim C8)
   ---------------------------------------------------------------- -/

/-- Token fragment for `parseVar`: names, an opaque `[`/`{` binding
pattern, `=`, the keyword `in`, the contextual name `of`, commas and a
terminator standing for any other token (`;`, `)`, ...). -/
inductive VTok where
  | vName (s : String) | vPattern | vEq | vIn | vOf | vComma | vOther
deriving Repr, DecidableEq

/-- `parseBindingAtom()` on the `parseVar` fragment: a name or an opaque
already-parsed `ArrayPattern`. -/
def parseBindingAtomV (toks : List VTok) : Except PErr (LNode × List VTok) :=
  match toks with
  | .vName s :: rest => .ok (LNode.identN s 0 0, rest)
  | .vPattern :: rest => .ok (LNode.bare "ArrayPattern" 0 0, rest)
  | _ => .error ⟨0, "Unexpected token"⟩

/-- `parseMaybeAssign` as called for a declarator initializer
(statement.js 624), on the fragment: one name atom. -/
def parseMaybeAssignV (toks : List VTok) : Except PErr (LNode × List VTok) :=
  match toks with
  | .vName s :: rest => .ok (LNode.identN s 0 0, rest)
  | _ => .error ⟨0, "Unexpected token"⟩

/-- One `VariableDeclarator`: `decl.id` and `decl.init`. -/
structure VDecl where
  id : LNode
  init : Option LNode
deriving Repr

/-- `parseVarId(decl, kind)` (statement.js 644-647): parse the binding atom
and run `checkLValPattern` with `BIND_VAR` or `BIND_LEXICAL`
(`checkClashes` is the falsy `false`, i.e. absent). -/
def parseVarId (fuel : Nat) (lctx : LvalCtx) (kind : String)
    (toks : List VTok) : Except PErr (LNode × List VTok) :=
  match parseBindingAtomV toks with
  | .error e => .error e
  | .ok (id, toks1) =>
    match checkLValPattern fuel lctx id
        (if kind == "var" then .bindVar else .bindLexical) none with
    | .error e => .error e
    | .ok _ => .ok (id, toks1)

/-- `parseVar(node, isFor, kind)` (statement.js 617-637): the declarator
loop.  A declarator with no `=` is an error for `const` unless the next
token is `in` or (ES6) contextual `of`; a non-`Identifier` id with no `=`
is an error unless in a `for` head before `in`/`of`; otherwise
`init = null`.  The loop continues only over a comma. -/
def parseVar (fuel : Nat) (ecmaVersion : Nat) (lctx : LvalCtx)
    (isFor : Bool) (kind : String) (toks : List VTok) :
    Except PErr (List VDecl × List VTok) :=
  match fuel with
  | 0 => .error ⟨0, "out of fuel"⟩
  | fuel + 1 =>
    match parseVarId fuel lctx kind toks with
    | .error e => .error e
    | .ok (id, toks1) =>
      let finish : VDecl → List VTok → Except PErr (List VDecl × List VTok) :=
        fun decl toksN =>
          match toksN with
          | .vComma :: rest =>
            (match parseVar fuel ecmaVersion lctx isFor kind rest with
             | .error e => .error e
             | .ok (decls, rest2) => .ok (decl :: decls, rest2))
          | _ => .ok ([decl], toksN)
      match toks1 with
      | .vEq :: toks2 =>
        (match parseMaybeAssignV toks2 with
         | .error e => .error e
         | .ok (init, toks3) => finish ⟨id, some init⟩ toks3)
      | _ =>
        if kind == "const"
            && !(toks1.head? == some .vIn
                 || (ecmaVersion ≥ 6 && toks1.head? == some .vOf)) then
          .error ⟨0, "Unexpected token"⟩
        else if id.type != "Identifier"
            && !(isFor && (toks1.head? == some .vIn || toks1.head? == some .vOf)) then
          .error ⟨0, "Complex binding patterns require an initialization value"⟩
        else finish ⟨id, none⟩ toks1

/- ----------------------------------------------------------------
   part_004 390-496: parseSubscripts / parseSubscript over a member,
   call and template token fragment  (claim C2)
   ---------------------------------------------------------------- -/

/-- Subscript-chain nodes: the base identifier, `MemberExpression`,
`CallExpression` (each with its `optional` flag as stamped when
`optionalSupported`), `TaggedTemplateExpression` (cooked template elided)
and the wrapping `ChainExpression`. -/
inductive SNode where
  | identS (name : String)
  | memberS (object : SNode) (propName : String) (computed optional : Bool)
  | callS (callee : SNode) (args : List String) (optional : Bool)
  | taggedS (tag : SNode)
  | chainS (expression : SNode)
deriving Repr, DecidableEq

/-- The `type` tag of each subscript node shape. -/
def SNode.typeNameS : SNode → String
  | .identS _ => "Identifier"
  | .memberS _ _ _ _ => "MemberExpression"
  | .callS _ _ _ => "CallExpression"
  | .taggedS _ => "TaggedTemplateExpression"
  | .chainS _ => "ChainExpression"

/-- `element.optional` (absent — hence false — on non-subscript nodes). -/
def SNode.optionalF : SNode → Bool
  | .memberS _ _ _ o => o
  | .callS _ _ o => o
  | _ => false

/-- Number of spine subnodes (the member/call chain under a
`ChainExpression`) with `optional = true`. -/
def spineOptionalCount : SNode → Nat
  | .memberS o _ _ opt => (if opt then 1 else 0) + spineOptionalCount o
  | .callS c _ opt => (if opt then 1 else 0) + spineOptionalCount c
  | .taggedS t => spineOptionalCount t
  | _ => 0

/-- Token fragment for the subscript parser: `?.`, `.`, `[` `]`, `(` `)`,
`,`, a backquote opening a template, and name atoms. -/
inductive STok where
  | qdotT | dotT | bracketLT | bracketRT | parenLT | parenRT | commaST
  | backQuoteT | nameST (s : String)
deriving Repr, DecidableEq

/-- `parseIdent(...)` as called for a subscript property (part_004 445),
on the fragment: one name token. -/
def parseIdentS (toks : List STok) : Except PErr (String × List STok) :=
  match toks with
  | .nameST s :: rest => .ok (s, rest)
  | _ => .error ⟨0, "Unexpected token"⟩

/-- `this.parseExpression()` inside a computed subscript (part_004 440),
on the fragment: one name atom. -/
def parseExpressionS (toks : List STok) : Except PErr (String × List STok) :=
  match toks with
  | .nameST s :: rest => .ok (s, rest)
  | _ => .error ⟨0, "Unexpected token"⟩

/-- `parseExprList(tt.parenR, ...)` for call arguments (part_004 461), on
the fragment: a possibly empty comma-separated list of name atoms, kept
as their names, up to the `)`. -/
def parseCallArgsS (fuel : Nat) (first : Bool) (toks : List STok) :
    Except PErr (List String × List STok) :=
  match fuel with
  | 0 => .error ⟨0, "out of fuel"⟩
  | fuel + 1 =>
    match toks with
    | .parenRT :: rest => .ok ([], rest)
    | _ =>
      let step : Except PErr (List STok) :=
        if first then .ok toks
        else
          match toks with
          | .commaST :: rest1 => .ok rest1
          | _ => .error ⟨0, "Unexpected token"⟩
      match step with
      | .error e => .error e
      | .ok toks1 =>
        match toks1 with
        | .nameST s :: rest2 =>
          (match parseCallArgsS fuel false rest2 with
           | .error e => .error e
           | .ok (args, rest3) => .ok (s :: args, rest3))
        | _ => .error ⟨0, "Unexpected token"⟩

/-- `parseSubscript(base, ..., noCalls, maybeAsyncArrow, optionalChained,
forInit)` (part_004 426-496) on the fragment (no `async` arrow heads, no
private identifiers, no `Super` base): eat an optional `?.`, then a
computed `[expr]`, a `.name` member, a `(args)` call, or a tagged
template; tagged templates reject any pending optional chain; with
nothing to do the base comes back unchanged.  `optional` is already
conjoined with `optionalSupported` (part_004 429), so stamping the node
with it matches the source's `if (optionalSupported) node.optional =
optional` (absent = false). -/
def parseSubscript (fuel : Nat) (ecmaVersion : Nat) (base : SNode)
    (noCalls optionalChained : Bool) (toks : List STok) :
    Except PErr (SNode × List STok) :=
  let optionalSupported := decide (ecmaVersion ≥ 11)
  let optional := optionalSupported && toks.head? == some .qdotT
  let t1 := if optional then toks.tail else toks
  if noCalls && optional then
    .error ⟨0, "Optional chaining cannot appear in the callee of new expressions"⟩
  else
    let computed := t1.head? == some .bracketLT
    let t2 := if computed then t1.tail else t1
    let memberViaOptional :=
      optional && t2.head? != some .parenLT && t2.head? != some .backQuoteT
    let viaDot := !computed && !memberViaOptional && t2.head? == some .dotT
    let t3 := if viaDot then t2.tail else t2
    if computed || memberViaOptional || viaDot then
      match (if computed then parseExpressionS t3 else parseIdentS t3) with
      | .error e => .error e
      | .ok (prop, t4) =>
        if computed then
          match t4 with
          | .bracketRT :: t5 =>
            .ok (.memberS base prop true optional, t5)
          | _ => .error ⟨0, "Unexpected token"⟩
        else .ok (.memberS base prop false optional, t4)
    else if !noCalls && t2.head? == some .parenLT then
      match parseCallArgsS fuel true t2.tail with
      | .error e => .error e
      | .ok (args, t4) =>
        .ok (.callS base args optional, t4)
    else if t2.head? == some .backQuoteT then
      if optional || optionalChained then
        .error ⟨0, "Optional chaining cannot appear in the tag of tagged template expressions"⟩
      else .ok (.taggedS base, t2.tail)
    else .ok (base, t2)

/-- The loop of `parseSubscripts(base, ..., noCalls, forInit)`
(part_004 390-412) with its running `optionalChained` flag: each optional
element sets the flag; when an element comes back unchanged (or is an
arrow function, impossible in the fragment) the loop stops, wrapping the
result in a `ChainExpression` if the flag is set. -/
def parseSubscriptsLoop (fuel : Nat) (ecmaVersion : Nat) (base : SNode)
    (noCalls optionalChained : Bool) (toks : List STok) :
    Except PErr (SNode × List STok) :=
  match fuel with
  | 0 => .error ⟨0, "out of fuel"⟩
  | fuel + 1 =>
    match parseSubscript fuel ecmaVersion base noCalls optionalChained toks with
    | .error e => .error e
    | .ok (element, toks2) =>
      let optionalChained2 := if element.optionalF then true else optionalChained
      if element == base || element.typeNameS == "ArrowFunctionExpression" then
        if optionalChained2 then .ok (.chainS element, toks2)
        else .ok (element, toks2)
      else parseSubscriptsLoop fuel ecmaVersion element noCalls optionalChained2 toks2

/-- `parseSubscripts` entry: `optionalChained` starts false
(part_004 395). -/
def parseSubscripts (fuel : Nat) (ecmaVersion : Nat) (base : SNode)
    (noCalls : Bool) (toks : List STok) : Except PErr (SNode × List STok) :=
  parseSubscriptsLoop fuel ecmaVersion base noCalls false toks


end Acorn

namespace Acorn

/-- C6 counterexample: the claim says whichever checker runs "promotes any
set field" of the `DestructuringErrors` record.  But `checkPatternErrors`
never promotes a set `shorthandAssign` or `doubleProto` (shorthand defaults
are legal in patterns), and `checkExpressionErrors` never promotes a set
`trailingComma`, `parenthesizedAssign` or `parenthesizedBind`: on records
with exactly those fields set, both checkers succeed without error. -/
theorem LNode.type_withType (n : LNode) (t : String) : (n.withType t).type = t := by
  cases n
  rfl

theorem LNode.type_withOperator (n : LNode) (o : Option String) :
    (n.withOperator o).type = n.type := by
  cases n
  rfl

theorem LNode.type_withProperties (n : LNode) (ps : List LNode) :
    (n.withProperties ps).type = n.type := by
  cases n
  rfl

theorem LNode.type_withElements (n : LNode) (es : List (Option LNode)) :
    (n.withElements es).type = n.type := by
  cases n
  rfl

theorem LNode.type_withArgument (n : LNode) (a : Option LNode) :
    (n.withArgument a).type = n.type := by
  cases n
  rfl

theorem LNode.type_withLeft (n : LNode) (l : Option LNode) :
    (n.withLeft l).type = n.type := by
  cases n
  rfl

theorem LNode.type_withValue (n : LNode) (v : Option LNode) :
    (n.withValue v).type = n.type := by
  cases n
  rfl

theorem LNode.type_withExpression (n : LNode) (x : Option LNode) :
    (n.withExpression x).type = n.type := by
  cases n
  rfl

theorem LNode.operator_withType (n : LNode) (t : String) :
    (n.withType t).operator = n.operator := by
  cases n
  rfl

theorem LNode.operator_withOperator (n : LNode) (o : Option String) :
    (n.withOperator o).operator = o := by
  cases n
  rfl

theorem LNode.operator_withLeft (n : LNode) (l : Option LNode) :
    (n.withLeft l).operator = n.operator := by
  cases n
  rfl

theorem LNode.left_withOperator (n : LNode) (o : Option String) :
    (n.withOperator o).left = n.left := by
  cases n
  rfl

theorem LNode.left_withType (n : LNode) (t : String) :
    (n.withType t).left = n.left := by
  cases n
  rfl

theorem LNode.properties_withType (n : LNode) (t : String) :
    (n.withType t).properties = n.properties := by
  cases n
  rfl

theorem LNode.elements_withType (n : LNode) (t : String) :
    (n.withType t).elements = n.elements := by
  cases n
  rfl

theorem LNode.argument_withType (n : LNode) (t : String) :
    (n.withType t).argument = n.argument := by
  cases n
  rfl

theorem c6_checker_ignores_other_role_fields :
    checkPatternErrors (some { shorthandAssign := 0, doubleProto := 3 }) true = .ok ()
    ∧ checkPatternErrors (some { shorthandAssign := 0 }) false = .ok ()
    ∧ checkExpressionErrors
        (some { trailingComma := 0, parenthesizedAssign := 1, parenthesizedBind := 2 })
        true = .ok false := by
  refine ⟨rfl, rfl, rfl⟩

/-- C6 (amended): when the role of the ambiguous construct is determined,
the role's checker promotes exactly the fields that are offences in that
role, each at its stored offset: `checkExpressionErrors` (expression role,
throwing) promotes a set `shorthandAssign` and then a set `doubleProto`;
`checkPatternErrors` (pattern role) promotes a set `trailingComma` and then
the parenthesized field selected by `isAssign`.  All fields start at -1. -/
theorem c6_delayed_error_promotion (r : DestructuringErrors) (isAssign : Bool) :
    (checkPatternErrors (some r) isAssign = .ok ()
      ↔ r.trailingComma ≤ -1
        ∧ (if isAssign then r.parenthesizedAssign else r.parenthesizedBind) ≤ -1)
    ∧ (r.trailingComma > -1 →
        checkPatternErrors (some r) isAssign
          = .error ⟨r.trailingComma, "Comma is not permitted after the rest element"⟩)
    ∧ (checkExpressionErrors (some r) true = .ok false
      ↔ r.shorthandAssign ≤ -1 ∧ r.doubleProto ≤ -1)
    ∧ (r.shorthandAssign ≥ 0 →
        checkExpressionErrors (some r) true
          = .error ⟨r.shorthandAssign,
              "Shorthand property assignments are valid only in destructuring patterns"⟩)
    ∧ (({} : DestructuringErrors).shorthandAssign = -1
        ∧ ({} : DestructuringErrors).trailingComma = -1
        ∧ ({} : DestructuringErrors).parenthesizedAssign = -1
        ∧ ({} : DestructuringErrors).parenthesizedBind = -1
        ∧ ({} : DestructuringErrors).doubleProto = -1) := by
  refine ⟨?_, ?_, ?_, ?_, rfl, rfl, rfl, rfl, rfl⟩
  · simp only [checkPatternErrors]
    by_cases htc : r.trailingComma > -1
    · simp [htc] <;> omega
    · by_cases hp : (if isAssign then r.parenthesizedAssign else r.parenthesizedBind) > -1
      · simp [htc, hp] <;> omega
      · simp [htc, hp] <;> omega
  · intro h
    simp [checkPatternErrors, h]
  · simp only [checkExpressionErrors]
    by_cases hs : r.shorthandAssign ≥ 0
    · simp [hs] <;> omega
    · by_cases hd : r.doubleProto ≥ 0
      · simp [hs, hd] <;> omega
      · simp [hs, hd] <;> omega
  · intro h
    simp [checkExpressionErrors, h]

/-- C6 witness: the amended theorem applied at a record with
`trailingComma = 4` set, in the pattern role. -/
theorem c6_delayed_error_promotion_witness :
    checkPatternErrors (some { trailingComma := 4 }) true
      = .error ⟨4, "Comma is not permitted after the rest element"⟩ :=
  (c6_delayed_error_promotion { trailingComma := 4 } true).2.1 (by decide)

/-- C10: for `ecmaVersion >= 6` the do-while tail never raises for a
missing semicolon — it consumes a `;` exactly when one is present (plain
`eat`, not the ASI-checking `semicolon()`), so `do x; while (y) z` parses
as two statements regardless of newlines; for `ecmaVersion < 6` the full
ASI rule applies: it errors exactly when no `;` is present and no ASI
position (`}`/EOF/preceding line break) allows one. -/
theorem c10_do_while_semicolon (ecmaVersion : Nat) (st after : SemiTokState)
    (pos : Int) :
    (ecmaVersion ≥ 6 →
      parseDoStatementSemi ecmaVersion st after pos
        = .ok (if st.typeIsSemi then after else st))
    ∧ (ecmaVersion < 6 →
      ((parseDoStatementSemi ecmaVersion st after pos).isOk = true
        ↔ (st.typeIsSemi = true ∨ canInsertSemicolon st = true))) := by
  constructor
  · intro h
    simp only [parseDoStatementSemi, if_pos h, eatSemi]
    by_cases hs : st.typeIsSemi <;> simp [hs]
  · intro h
    have h6 : ¬ ecmaVersion ≥ 6 := by omega
    simp only [parseDoStatementSemi, if_neg h6, semicolon, eatSemi, insertSemicolon]
    by_cases hs : st.typeIsSemi
    · simp [hs, Except.isOk, Except.toBool]
    · by_cases hc : canInsertSemicolon st
      · simp [hs, hc, Except.isOk, Except.toBool]
      · simp [hs, hc, Except.isOk, Except.toBool]

/-- C10 witness: with `ecmaVersion = 6` and the current token a name token
on the same line (the `z` of `do x; while (y) z`), the tail succeeds
without consuming anything. -/
theorem c10_do_while_semicolon_witness :
    parseDoStatementSemi 6
      { typeIsSemi := false, typeIsBraceR := false, typeIsEof := false,
        newlineBefore := false }
      { typeIsSemi := false, typeIsBraceR := false, typeIsEof := true,
        newlineBefore := false } 9
      = .ok { typeIsSemi := false, typeIsBraceR := false, typeIsEof := false,
              newlineBefore := false } :=
  (c10_do_while_semicolon 6 _ _ 9).1 (by decide)

/-- C7: `exitClassBody` propagates every used-but-undeclared private name
of the popped frame to the parent frame's `used` list (in order); with no
parent frame it raises `Private field '#x' must be declared in an enclosing
class` at the first such use's position.  Concretely, the frame produced by
`class C { #x; method() { return this.#x; } }` (declared `#x`, used `#x`)
exits cleanly, while that of `class C { method() { return this.#x; } }`
(used but not declared) fails with exactly that message at the use
position; `parsePrivateIdent` is what appends each use to the top frame. -/
theorem c7_exit_class_body_private_names (frame parent : PrivFrame)
    (rest : List PrivFrame) (id : PrivUse) :
    (exitClassBody ⟨frame :: parent :: rest⟩
      = .ok ⟨{ parent with used := parent.used
            ++ frame.used.filter (fun u => !hasOwnDeclared frame.declared u.name) }
            :: rest⟩)
    ∧ (frame.used.find? (fun u => !hasOwnDeclared frame.declared u.name) = some id →
        exitClassBody ⟨[frame]⟩ = .error ⟨id.start, privateFieldErrMsg id.name⟩)
    ∧ ((∀ u ∈ frame.used, hasOwnDeclared frame.declared u.name = true) →
        exitClassBody ⟨[frame]⟩ = .ok ⟨[]⟩)
    ∧ (parsePrivateIdentRecord ⟨frame :: rest⟩ id.name id.start
        = .ok ⟨{ frame with used := frame.used ++ [⟨id.name, id.start⟩] } :: rest⟩)
    ∧ (exitClassBody ⟨[⟨[("x", "true")], [⟨"x", 42⟩]⟩]⟩ = .ok ⟨[]⟩)
    ∧ (exitClassBody ⟨[⟨[], [⟨"x", 42⟩]⟩]⟩
        = .error ⟨42, "Private field \x27#x\x27 must be declared in an enclosing class"⟩) := by
  refine ⟨rfl, ?_, ?_, rfl, rfl, rfl⟩
  · intro h
    simp only [exitClassBody, h]
  · intro h
    have hnone : frame.used.find? (fun u => !hasOwnDeclared frame.declared u.name) = none := by
      apply List.find?_eq_none.mpr
      intro u hu
      simp [h u hu]
    simp only [exitClassBody, hnone]

/-- C7 witness: the propagation and no-parent-error cases applied to a
concrete frame whose only use `#y` at offset 7 is undeclared. -/
theorem c7_exit_class_body_private_names_witness :
    exitClassBody ⟨[⟨[("z", "true")], [⟨"y", 7⟩]⟩]⟩
      = .error ⟨7, privateFieldErrMsg "y"⟩ :=
  (c7_exit_class_body_private_names ⟨[("z", "true")], [⟨"y", 7⟩]⟩ ⟨[], []⟩ []
    ⟨"y", 7⟩).2.1 (by decide)

/-- C3: `1 && 2 ?? 3` raises the recoverable mixed-coalesce error while the
parenthesized `(1 && 2) ?? 3` (whose left operand arrives from
`parseExprAtom` as an already-parsed atom) parses into a `??`
`LogicalExpression`; mixing in the other order (`1 ?? 2 && 3`) is caught by
the same check because `parseExprOp` hands the right-operand parse the
precedence `tt.logicalAND.binop` in place of `tt.coalesce.binop`. -/
theorem c3_coalesce_mixing :
    parseExprOps 9 false
        [.atomTok (.atom "1"), .opTok .logicalAND, .atomTok (.atom "2"),
         .opTok .coalesce, .atomTok (.atom "3")]
      = .error ⟨0, "Logical expressions and coalesce expressions cannot be mixed. Wrap either by parentheses"⟩
    ∧ parseExprOps 9 false
        [.atomTok (.logical "&&" (.atom "1") (.atom "2")),
         .opTok .coalesce, .atomTok (.atom "3")]
      = .ok (.logical "??" (.logical "&&" (.atom "1") (.atom "2")) (.atom "3"), [])
    ∧ parseExprOps 9 false
        [.atomTok (.atom "1"), .opTok .coalesce, .atomTok (.atom "2"),
         .opTok .logicalAND, .atomTok (.atom "3")]
      = .error ⟨0, "Logical expressions and coalesce expressions cannot be mixed. Wrap either by parentheses"⟩
    ∧ coalescedPrec .coalesce = OpK.logicalAND.binop
    ∧ OpK.coalesce.binop ≠ OpK.logicalAND.binop := by
  refine ⟨rfl, rfl, rfl, rfl, by decide⟩

/-- C4 counterexample: on the postfix input `a++` the parser returns a node
finished as `nt.UnaryExpression` with `prefix = false` (part_004 335) — not
the `UpdateExpression` the claim asserts. -/
theorem c4_postfix_yields_unary_expression :
    parseMaybeUnary 3 false (fun _ => false) false false
        [.atomTok "a" false, .incDecTok "++" false]
      = .ok (.unary "++" false (.ident "a"), [])
    ∧ UNode.typeName (.unary "++" false (.ident "a")) = "UnaryExpression"
    ∧ UNode.typeName (.unary "++" false (.ident "a")) ≠ "UpdateExpression" := by
  refine ⟨rfl, rfl, by decide⟩

/-- C4 (amended): a prefix `++`/`--` produces an `UpdateExpression` node
(`prefix = true`); the other prefix operators produce `UnaryExpression`
nodes; a postfix `++`/`--` greedily consumed after `parseExprSubscripts`
produces an `UnaryExpression` node with `prefix = false` (not an
`UpdateExpression`); and a postfix operator preceded by a newline is not
consumed.  `quietAfter rest` says the following token neither continues
with `**` nor with another same-line postfix operator. -/
theorem c4_parse_maybe_unary_nodes (fuel : Nat) (resBind : String → Bool)
    (op name : String) (nl nl2 : Bool) (rest : List UTok)
    (hq : quietAfter rest = true) :
    (parseMaybeUnary (fuel + 2) false resBind false false
        (.incDecTok op nl :: .atomTok name nl2 :: rest)
      = .ok (.update op true (.ident name), rest))
    ∧ (parseMaybeUnary (fuel + 2) false resBind false false
        (.prefixOpTok op nl :: .atomTok name nl2 :: rest)
      = .ok (.unary op true (.ident name), rest))
    ∧ (parseMaybeUnary (fuel + 1) false resBind false false
        (.atomTok name nl :: .incDecTok op false :: rest)
      = .ok (.unary op false (.ident name), rest))
    ∧ (parseMaybeUnary (fuel + 1) false resBind false false
        (.atomTok name nl :: .incDecTok op true :: rest)
      = .ok (.ident name, .incDecTok op true :: rest))
    ∧ UNode.typeName (.update op true (.ident name)) = "UpdateExpression"
    ∧ UNode.typeName (.unary op false (.ident name)) = "UnaryExpression" := by
  refine ⟨?_, ?_, ?_, ?_, rfl, rfl⟩
  · cases rest with
    | nil => simp [parseMaybeUnary, parseExprSubscriptsAtom, postfixLoop,
        prefixOperandChecks, checkLValSimpleNone, canInsertSemicolonU]
    | cons t r =>
      cases t <;>
        simp_all [parseMaybeUnary, parseExprSubscriptsAtom, postfixLoop,
          prefixOperandChecks, checkLValSimpleNone, canInsertSemicolonU, quietAfter]
  · cases rest with
    | nil => simp [parseMaybeUnary, parseExprSubscriptsAtom, postfixLoop,
        prefixOperandChecks, checkLValSimpleNone, canInsertSemicolonU,
        isPrivateFieldAccess, UNode.typeName]
    | cons t r =>
      cases t <;>
        simp_all [parseMaybeUnary, parseExprSubscriptsAtom, postfixLoop,
          prefixOperandChecks, checkLValSimpleNone, canInsertSemicolonU,
          isPrivateFieldAccess, UNode.typeName, quietAfter]
  · cases rest with
    | nil => simp [parseMaybeUnary, parseExprSubscriptsAtom, postfixLoop,
        prefixOperandChecks, checkLValSimpleNone, canInsertSemicolonU]
    | cons t r =>
      cases t <;>
        simp_all [parseMaybeUnary, parseExprSubscriptsAtom, postfixLoop,
          prefixOperandChecks, checkLValSimpleNone, canInsertSemicolonU, quietAfter]
  · cases rest with
    | nil => simp [parseMaybeUnary, parseExprSubscriptsAtom, postfixLoop,
        prefixOperandChecks, checkLValSimpleNone, canInsertSemicolonU]
    | cons t r =>
      cases t <;>
        simp_all [parseMaybeUnary, parseExprSubscriptsAtom, postfixLoop,
          prefixOperandChecks, checkLValSimpleNone, canInsertSemicolonU, quietAfter]

/-- C4 witness: the amended theorem applied to prefix `--b` with nothing
following. -/
theorem c4_parse_maybe_unary_nodes_witness :
    parseMaybeUnary 2 false (fun _ => false) false false
        [.incDecTok "--" false, .atomTok "b" false]
      = .ok (.update "--" true (.ident "b"), []) :=
  (c4_parse_maybe_unary_nodes 0 (fun _ => false) "--" "b" false false [] (by decide)).1

/-- Helper: the decision core shared by `isLet` (if-cascade form) and
`letDeclSpec` (boolean-formula form), abstracted over the peeked code unit
`c`, the code unit `a` after the scanned identifier, and the
keyword-relational test result `kw`. -/
theorem isLetCore_eq (ctx : Option String) (c a : Nat) (kw : Bool) :
    (if c == 91 || c == 92 then true
     else if ctx.isSome then false
     else if c == 123 || (0xd7ff < c && c < 0xdc00) then true
     else if isIdentifierStart c true then
       (if a == 92 || (0xd7ff < a && a < 0xdc00) then true else !kw)
     else false)
    = (c == 91 || c == 92
        || (ctx.isNone
            && (c == 123 || (0xd7ff < c && c < 0xdc00)
                || (isIdentifierStart c true
                    && (a == 92 || (0xd7ff < a && a < 0xdc00) || !kw))))) := by
  cases ctx <;>
    simp only [Option.isSome_none, Option.isNone_none, Option.isSome_some,
      Option.isNone_some] <;>
  · generalize (c == 91) = b1
    generalize (c == 92) = b2
    generalize (c == 123) = b3
    generalize (decide (0xd7ff < c)) = b4
    generalize (decide (c < 0xdc00)) = b5
    generalize isIdentifierStart c true = b6
    generalize (a == 92) = b7
    generalize (decide (0xd7ff < a)) = b8
    generalize (decide (a < 0xdc00)) = b9
    revert b1 b2 b3 b4 b5 b6 b7 b8 b9 kw
    decide

/-- C5 counterexample: with a non-null statement context (`L: let [a] = b;`
— a labeled statement), `isLet` still answers true when `let` is followed
by `[`, so `parseStatement` routes the statement to the declaration path
(`starttype = tt._var`, `kind = "let"`, then `unexpected()`), refuting
"whenever the statement context is non-null, `let` is never parsed as a
declaration". -/
theorem c5_let_bracket_ignores_context :
    isLet { ecmaVersion := 2022, typeIsName := true, value := "let",
            containsEsc := false, context := some "label",
            input := codes "let [a] = b;", pos := 3 } = true
    ∧ parseStatementLetDispatch
        { ecmaVersion := 2022, typeIsName := true, value := "let",
          containsEsc := false, context := some "label",
          input := codes "let [a] = b;", pos := 3 } = .declarationError := by
  refine ⟨rfl, rfl⟩

/-- C5 (amended): at statement start `let` is treated as a declaration head
exactly when it is followed (after whitespace and comments) by `[` or `\`
— regardless of `context` — or, with `context` null, by `{`, an astral
half, or an identifier start whose scanned identifier ends in `\`/astral
or is not one of the keyword relational operators `in`/`instanceof`
(`isLet` coincides with the spec-side rule `letDeclSpec`); when `isLet`
answers true, `parseStatement` takes the declaration path with
`kind = "let"`, which is `unexpected()` whenever `context` is non-null;
otherwise the normal dispatch continues. -/
theorem c5_is_let_characterization (st : LetState) :
    (isLet st = letDeclSpec st)
    ∧ (isLet st = true → st.context.isNone →
        parseStatementLetDispatch st = .declaration "let")
    ∧ (isLet st = true → st.context.isSome →
        parseStatementLetDispatch st = .declarationError)
    ∧ (isLet st = false → parseStatementLetDispatch st = .other) := by
  refine ⟨?_, ?_, ?_, ?_⟩
  · by_cases hv : st.ecmaVersion < 6
    · have hv6 : ¬ st.ecmaVersion ≥ 6 := by omega
      simp [isLet, letDeclSpec, hv, hv6]
    · have hv6 : st.ecmaVersion ≥ 6 := by omega
      by_cases hc : isContextualLet st = true
      · simp only [isLet, letDeclSpec, hv, hv6, hc]
        simp only [decide_eq_false hv, decide_eq_true hv6, hc, Bool.not_true,
          Bool.or_false, Bool.true_and, Bool.false_or, if_false, ite_false,
          Bool.false_eq_true, if_neg (by simp : ¬ False)]
        exact isLetCore_eq st.context _ _ _
      · simp [isLet, letDeclSpec, hv, hc]
  · intro h hnone
    simp [parseStatementLetDispatch, h, Option.isNone_iff_eq_none.mp hnone]
  · intro h hsome
    simp [parseStatementLetDispatch, h, hsome]
  · intro h
    simp [parseStatementLetDispatch, h]

/-- C5 witness: the characterization applied to `let x = 1;` at top level
(null context): `isLet` answers true and the statement is dispatched as a
`let` declaration. -/
theorem c5_is_let_characterization_witness :
    parseStatementLetDispatch
      { ecmaVersion := 2022, typeIsName := true, value := "let",
        containsEsc := false, context := none,
        input := codes "let x = 1;", pos := 3 } = .declaration "let" :=
  (c5_is_let_characterization
    { ecmaVersion := 2022, typeIsName := true, value := "let",
      containsEsc := false, context := none,
      input := codes "let x = 1;", pos := 3 }).2.1 (by rfl) (by rfl)

/-- C1 counterexample: the claim says that besides the listed mapping
every other node kind is an error, and that `ParenthesizedExpression` is
unwrapped.  But `toAssignable` accepts a plain `Identifier` unchanged (no
error), and a `ParenthesizedExpression` comes back still wrapped — only
its inner expression is converted (`{a}` becomes an `ObjectPattern` inside
the intact wrapper). -/
theorem c1_identifier_accepted_paren_kept :
    toAssignable 2 ⟨6, false⟩ (some (LNode.identN "x" 5 6)) false none
      = .ok (some (LNode.identN "x" 5 6))
    ∧ toAssignable 4 ⟨6, false⟩
        (some ((LNode.bare "ParenthesizedExpression" 0 5).withExpression
          (some (LNode.bare "ObjectExpression" 1 4)))) false none
      = .ok (some ((LNode.bare "ParenthesizedExpression" 0 5).withExpression
          (some ((LNode.bare "ObjectExpression" 1 4).withType "ObjectPattern"))))
    ∧ ((LNode.bare "ParenthesizedExpression" 0 5).withExpression
          (some ((LNode.bare "ObjectExpression" 1 4).withType "ObjectPattern"))).type
        = "ParenthesizedExpression" := by
  refine ⟨rfl, rfl, rfl⟩

/-- C1 (amended): for `ecmaVersion >= 6`, `toAssignable` converts in place
with the mapping `ObjectExpression`→`ObjectPattern`,
`ArrayExpression`→`ArrayPattern`, `SpreadElement`→`RestElement`,
`AssignmentExpression` with operator `=`→`AssignmentPattern` (operator
removed), `Property` of kind `init` preserved, and recurses through a
`ParenthesizedExpression` keeping the wrapper; a `ChainExpression`, an
assignment whose operator is not `=`, and a `Property` of other kind are
errors; a `MemberExpression` is accepted exactly when `isBinding` is
false; an `Identifier` (except `await` inside async) and the pattern kinds
`ObjectPattern`/`ArrayPattern`/`AssignmentPattern`/`RestElement` are
accepted unchanged; all remaining kinds are `Assigning to rvalue`
errors. -/
theorem c1_to_assignable_mapping (fuel : Nat) (st : PState) (n : LNode)
    (isBinding : Bool) (refE : Option DestructuringErrors)
    (hv : st.ecmaVersion ≥ 6) :
    (toAssignable (fuel + 1) st (some n) isBinding refE
      = Except.map some (toAssignableCases fuel st n isBinding refE))
    ∧ (n.type = "ObjectExpression" →
        ∀ r, toAssignableCases (fuel + 1) st n isBinding refE = .ok r →
          r.type = "ObjectPattern")
    ∧ (n.type = "ArrayExpression" →
        ∀ r, toAssignableCases (fuel + 1) st n isBinding refE = .ok r →
          r.type = "ArrayPattern")
    ∧ (n.type = "SpreadElement" →
        ∀ r, toAssignableCases (fuel + 1) st n isBinding refE = .ok r →
          r.type = "RestElement")
    ∧ (n.type = "AssignmentExpression" → n.operator = some "=" →
        ∀ r, toAssignableCases (fuel + 1) st n isBinding refE = .ok r →
          r.type = "AssignmentPattern" ∧ r.operator = none)
    ∧ (n.type = "AssignmentExpression" → n.operator ≠ some "=" →
        toAssignableCases (fuel + 1) st n isBinding refE
          = .error ⟨((n.left.map (fun l => (l.nend : Int))).getD 0),
              "Only \x27=\x27 operator can be used for specifying default value."⟩)
    ∧ (n.type = "Property" → n.kind = "init" →
        ∀ r, toAssignableCases (fuel + 1) st n isBinding refE = .ok r →
          r.type = "Property")
    ∧ (n.type = "Property" → n.kind ≠ "init" →
        toAssignableCases (fuel + 1) st n isBinding refE
          = .error ⟨((n.key.map (fun k => (k.start : Int))).getD 0),
              "Object pattern can\x27t contain getter or setter"⟩)
    ∧ (n.type = "ParenthesizedExpression" →
        ∀ r, toAssignableCases (fuel + 1) st n isBinding refE = .ok r →
          r.type = "ParenthesizedExpression")
    ∧ (n.type = "ChainExpression" →
        toAssignableCases (fuel + 1) st n isBinding refE
          = .error ⟨n.start, "Optional chaining cannot appear in left-hand side"⟩)
    ∧ (n.type = "MemberExpression" →
        toAssignableCases (fuel + 1) st n isBinding refE
          = if isBinding then .error ⟨n.start, "Assigning to rvalue"⟩ else .ok n)
    ∧ (n.type = "Identifier" → ¬(st.inAsync = true ∧ n.name = "await") →
        toAssignableCases (fuel + 1) st n isBinding refE = .ok n)
    ∧ (n.type = "ObjectPattern" ∨ n.type = "ArrayPattern"
        ∨ n.type = "AssignmentPattern" ∨ n.type = "RestElement" →
        toAssignableCases (fuel + 1) st n isBinding refE = .ok n)
    ∧ (n.type ∉ ["Identifier", "ObjectPattern", "ArrayPattern",
          "AssignmentPattern", "RestElement", "ObjectExpression", "Property",
          "ArrayExpression", "SpreadElement", "AssignmentExpression",
          "ParenthesizedExpression", "ChainExpression", "MemberExpression"] →
        toAssignableCases (fuel + 1) st n isBinding refE
          = .error ⟨n.start, "Assigning to rvalue"⟩) := by
  refine ⟨?_, ?_, ?_, ?_, ?_, ?_, ?_, ?_, ?_, ?_, ?_, ?_, ?_, ?_⟩
  · show toAssignable (fuel + 1) st (some n) isBinding refE
      = Except.map some (toAssignableCases fuel st n isBinding refE)
    simp only [toAssignable, hv, if_true, ge_iff_le, decide_eq_true hv]
    cases toAssignableCases fuel st n isBinding refE <;> simp [Except.map]
  · intro ht r hr
    simp only [toAssignableCases, ht] at hr
    cases hcp : checkPatternErrors refE true with
    | error e => rw [hcp] at hr; exact absurd hr (by simp)
    | ok u =>
      rw [hcp] at hr
      cases hpr : toAssignableProps fuel st isBinding
          ((n.withType "ObjectPattern").properties) with
      | error e => rw [hpr] at hr; exact absurd hr (by simp)
      | ok props =>
        rw [hpr] at hr
        simp only [Except.ok.injEq] at hr
        subst hr
        simp [LNode.type_withProperties, LNode.type_withType]
  · intro ht r hr
    simp only [toAssignableCases, ht] at hr
    cases hcp : checkPatternErrors refE true with
    | error e => rw [hcp] at hr; exact absurd hr (by simp)
    | ok u =>
      rw [hcp] at hr
      cases hpr : toAssignableList fuel st ((n.withType "ArrayPattern").elements)
          isBinding with
      | error e => rw [hpr] at hr; exact absurd hr (by simp)
      | ok els =>
        rw [hpr] at hr
        simp only [Except.ok.injEq] at hr
        subst hr
        simp [LNode.type_withElements, LNode.type_withType]
  · intro ht r hr
    simp only [toAssignableCases, ht] at hr
    cases hta : toAssignable fuel st ((n.withType "RestElement").argument)
        isBinding none with
    | error e => rw [hta] at hr; exact absurd hr (by simp)
    | ok arg =>
      rw [hta] at hr
      cases arg with
      | none =>
        simp only [Except.ok.injEq] at hr
        subst hr
        simp [LNode.type_withArgument, LNode.type_withType]
      | some a =>
        by_cases hap : a.type == "AssignmentPattern"
        · simp [hap] at hr
        · simp only [hap, if_false, Bool.false_eq_true, Except.ok.injEq] at hr
          subst hr
          simp [LNode.type_withArgument, LNode.type_withType]
  · intro ht hop r hr
    simp only [toAssignableCases, ht] at hr
    rw [hop] at hr
    simp only [ne_eq, reduceCtorEq, not_false_eq_true, bne_self_eq_false,
      Bool.false_eq_true, if_false] at hr
    cases hta : toAssignable fuel st
        (((n.withType "AssignmentPattern").withOperator none).left)
        isBinding none with
    | error e =>
      rw [hta] at hr
      exact absurd hr (by simp)
    | ok l =>
      rw [hta] at hr
      simp only [Except.ok.injEq] at hr
      subst hr
      constructor
      · simp [LNode.type_withLeft, LNode.type_withOperator, LNode.type_withType]
      · simp [LNode.operator_withLeft, LNode.operator_withOperator]
  · intro ht hop
    simp only [toAssignableCases, ht]
    have : (n.operator != some "=") = true := by
      simp [bne_iff_ne, hop]
    simp [this]
  · intro ht hk r hr
    simp only [toAssignableCases, ht] at hr
    rw [hk] at hr
    simp only [bne_self_eq_false, Bool.false_eq_true, if_false] at hr
    cases hta : toAssignable fuel st n.value isBinding none with
    | error e => rw [hta] at hr; exact absurd hr (by simp)
    | ok v =>
      rw [hta] at hr
      simp only [Except.ok.injEq] at hr
      subst hr
      simp [LNode.type_withValue, ht]
  · intro ht hk
    simp only [toAssignableCases, ht]
    have : (n.kind != "init") = true := by
      simp [bne_iff_ne, hk]
    simp [this]
  · intro ht r hr
    simp only [toAssignableCases, ht] at hr
    cases hta : toAssignable fuel st n.expression isBinding refE with
    | error e => rw [hta] at hr; exact absurd hr (by simp)
    | ok ex =>
      rw [hta] at hr
      simp only [Except.ok.injEq] at hr
      subst hr
      simp [LNode.type_withExpression, ht]
  · intro ht
    simp [toAssignableCases, ht]
  · intro ht
    simp only [toAssignableCases, ht]
    by_cases hb : isBinding
    · simp [hb]
    · simp [hb]
  · intro ht hna
    simp only [toAssignableCases, ht]
    have : (st.inAsync && n.name == "await") = false := by
      by_cases h : st.inAsync = true
      · simp only [h, Bool.true_and, beq_eq_false_iff_ne, ne_eq]
        intro hn
        exact hna ⟨h, hn⟩
      · have h2 : st.inAsync = false := by
          cases hb : st.inAsync
          · rfl
          · exact absurd hb h
        simp [h2]
    simp [this]
  · intro ht
    rcases ht with h | h | h | h <;> simp [toAssignableCases, h]
  · intro ht
    simp only [List.mem_cons, List.mem_singleton, not_or] at ht
    simp only [toAssignableCases]
    split <;> simp_all

/-- C1 witness: the amended mapping applied to the `ObjectExpression` node
of `({a: b})` used as an assignment target. -/
theorem c1_to_assignable_mapping_witness :
    toAssignableCases 3 ⟨6, false⟩ (LNode.bare "ObjectExpression" 1 4) false none
        = .ok ((LNode.bare "ObjectExpression" 1 4).withType "ObjectPattern")
    ∧ ((LNode.bare "ObjectExpression" 1 4).withType "ObjectPattern").type
        = "ObjectPattern" := by
  refine ⟨rfl, (c1_to_assignable_mapping 2 ⟨6, false⟩ (LNode.bare "ObjectExpression" 1 4)
    false none (by decide)).2.1 rfl _ rfl⟩

/-- C9: an elision in an array literal or array binding pattern (`[a,,b]`)
is represented as a null entry at that position of the resulting elements
list — both `parseExprList` (with `allowEmpty`) and `parseBindingList`
push `null` when the element position holds a comma — and every consumer
of such lists skips null entries without raising an error:
`toAssignableList`'s element loop, `checkLValPattern`'s `ArrayPattern`
loop and `checkPatternExport`'s `ArrayPattern` loop all pass over `null`
unchanged, as the concrete whole-list runs confirm. -/
theorem c9_array_elision_null_entries (fuel : Nat) (st : PState)
    (isBinding : Bool) (ctx : LvalCtx) (bt : BindKind)
    (cc : Option (List String)) (exports : Option (List String))
    (rest : List (Option LNode)) :
    (parseExprList 9 true true true none
        [.nameT "a", .commaT, .commaT, .nameT "b", .closeT]
      = .ok ([some (LNode.identN "a" 0 0), none, some (LNode.identN "b" 0 0)],
          none, []))
    ∧ (parseBindingList 9 2022 true true true
        [.nameT "a", .commaT, .commaT, .nameT "b", .closeT]
      = .ok ([some (LNode.identN "a" 0 0), none, some (LNode.identN "b" 0 0)], []))
    ∧ (toAssignableElems (fuel + 1) st isBinding (none :: rest)
      = match toAssignableElems fuel st isBinding rest with
        | .error e => .error e
        | .ok rest2 => .ok (none :: rest2))
    ∧ (toAssignableList 9 st [none, none] isBinding = .ok [none, none])
    ∧ (checkLValElems (fuel + 1) ctx (none :: rest) bt cc
      = checkLValElems fuel ctx rest bt cc)
    ∧ (checkLValPattern 9 ctx
        ((LNode.bare "ArrayPattern" 0 5).withElements [none, none]) bt cc
      = .ok cc)
    ∧ (checkPatternExportElems (fuel + 1) exports (none :: rest)
      = checkPatternExportElems fuel exports rest)
    ∧ (checkPatternExport 9 (some [])
        ((LNode.bare "ArrayPattern" 0 7).withElements
          [some (LNode.identN "a" 1 2), none, some (LNode.identN "b" 4 5)])
      = .ok (some ["a", "b"])) := by
  refine ⟨rfl, rfl, rfl, rfl, rfl, rfl, rfl, rfl⟩

/-- Helper for C8: in a successful `parseVar` run with `kind = "const"`,
any declarator without an initializer is the last one and the remaining
token stream starts with `in` or (ES6) contextual `of` — the declarator
loop otherwise raises at the missing `=`. -/
theorem parseVar_const_no_init : ∀ (fuel ecma : Nat) (lctx : LvalCtx)
    (isFor : Bool) (toks : List VTok) (decls : List VDecl) (rest : List VTok),
    parseVar fuel ecma lctx isFor "const" toks = .ok (decls, rest) →
    ∀ d ∈ decls, d.init = none →
      rest.head? = some .vIn ∨ (ecma ≥ 6 ∧ rest.head? = some .vOf)
  | 0, ecma, lctx, isFor, toks, decls, rest, hp => by
    simp [parseVar] at hp
  | fuel + 1, ecma, lctx, isFor, toks, decls, rest, hp => by
    simp only [parseVar] at hp
    cases hid : parseVarId fuel lctx "const" toks with
    | error e =>
      rw [hid] at hp
      simp at hp
    | ok idt =>
      rw [hid] at hp
      obtain ⟨id, toks1⟩ := idt
      cases toks1 with
      | nil =>
        dsimp only at hp
        simp at hp
      | cons t1 trest =>
        cases t1
        case vEq =>
          dsimp only at hp
          cases hma : parseMaybeAssignV trest with
          | error e =>
            rw [hma] at hp
            simp at hp
          | ok initt =>
            rw [hma] at hp
            obtain ⟨init, toks3⟩ := initt
            dsimp only at hp
            cases toks3 with
            | nil =>
              dsimp only at hp
              simp only [Except.ok.injEq, Prod.mk.injEq] at hp
              obtain ⟨hd, hr⟩ := hp
              subst hd
              intro d hd2 hdi
              simp only [List.mem_singleton] at hd2
              subst hd2
              exact absurd hdi (by simp)
            | cons t3 t3rest =>
              cases t3
              case vComma =>
                dsimp only at hp
                cases hrec : parseVar fuel ecma lctx isFor "const" t3rest with
                | error e =>
                  rw [hrec] at hp
                  simp at hp
                | ok dr =>
                  rw [hrec] at hp
                  obtain ⟨decls2, rest2⟩ := dr
                  simp only [Except.ok.injEq, Prod.mk.injEq] at hp
                  obtain ⟨hd, hr⟩ := hp
                  subst hd
                  subst hr
                  intro d hd2 hdi
                  simp only [List.mem_cons] at hd2
                  rcases hd2 with hd2 | hd2
                  · subst hd2
                    exact absurd hdi (by simp)
                  · exact parseVar_const_no_init fuel ecma lctx isFor t3rest
                      decls2 rest2 hrec d hd2 hdi
              all_goals
                dsimp only at hp
                simp only [Except.ok.injEq, Prod.mk.injEq] at hp
                obtain ⟨hd, hr⟩ := hp
                subst hd
                intro d hd2 hdi
                simp only [List.mem_singleton] at hd2
                subst hd2
                exact absurd hdi (by simp)
        case vIn =>
          dsimp only at hp
          split at hp
          · simp at hp
          · split at hp
            · simp at hp
            · try dsimp only at hp
              simp only [Except.ok.injEq, Prod.mk.injEq] at hp
              obtain ⟨hd, hr⟩ := hp
              subst hd
              subst hr
              intro d hd2 hdi
              simp only [List.mem_singleton] at hd2
              subst hd2
              left
              rfl
        case vOf =>
          dsimp only at hp
          split at hp
          · simp at hp
          · next hcond =>
            have h6 : ecma ≥ 6 := by
              by_contra hn
              apply hcond
              simp [hn]
            split at hp
            · simp at hp
            · try dsimp only at hp
              simp only [Except.ok.injEq, Prod.mk.injEq] at hp
              obtain ⟨hd, hr⟩ := hp
              subst hd
              subst hr
              intro d hd2 hdi
              simp only [List.mem_singleton] at hd2
              subst hd2
              right
              exact ⟨h6, rfl⟩
        all_goals
          dsimp only at hp
          split at hp
          · simp at hp
          · next hcond =>
            exact absurd (by simp : ("const" == "const"
              && !(((_ :: trest : List VTok)).head? == some VTok.vIn
                || decide (ecma ≥ 6)
                  && ((_ :: trest : List VTok)).head? == some VTok.vOf)) = true) hcond

/-- The trivial lvalue context used for the concrete `parseVar` run:
non-strict, with a scope oracle that accepts every declaration. -/
def trivialLvalCtx : LvalCtx :=
  ⟨false, fun _ => false, fun _ _ _ => none⟩

/-- C8: a successful `parseVar` with `kind = "const"` gives every
declarator a non-null `init`, except that the last declarator may have
`init = null` exactly when the remaining stream begins with `in` or (ES6)
contextual `of` — the for-in/for-of head; `parseVar` raises on any other
`const` declarator lacking `=`.  Concretely, the head of
`for (const x of xs) x++;` parses with one declarator, `init = null` and
no error, while `const x;` is an error. -/
theorem c8_const_requires_init (fuel ecma : Nat) (lctx : LvalCtx)
    (isFor : Bool) (toks : List VTok) (decls : List VDecl) (rest : List VTok)
    (hp : parseVar fuel ecma lctx isFor "const" toks = .ok (decls, rest)) :
    (∀ d ∈ decls, d.init = none →
      rest.head? = some .vIn ∨ (ecma ≥ 6 ∧ rest.head? = some .vOf))
    ∧ (parseVar 3 2022 trivialLvalCtx true "const"
        [.vName "x", .vOf, .vName "xs", .vOther]
      = .ok ([⟨LNode.identN "x" 0 0, none⟩], [.vOf, .vName "xs", .vOther]))
    ∧ (parseVar 3 2022 trivialLvalCtx false "const" [.vName "x", .vOther]
      = .error ⟨0, "Unexpected token"⟩) := by
  refine ⟨parseVar_const_no_init fuel ecma lctx isFor toks decls rest hp, rfl, rfl⟩

/-- C8 witness: the theorem applied to the `for (const x of xs)` head; its
sole declarator has `init = null` and the remaining stream indeed starts
with the contextual `of`. -/
theorem c8_const_requires_init_witness :
    (2022 ≥ 6
      ∧ ([VTok.vOf, VTok.vName "xs", VTok.vOther].head? = some VTok.vOf)) :=
  have h := c8_const_requires_init 3 2022 trivialLvalCtx true
    [.vName "x", .vOf, .vName "xs", .vOther]
    [⟨LNode.identN "x" 0 0, none⟩] [.vOf, .vName "xs", .vOther] (by rfl)
  (h.1 ⟨LNode.identN "x" 0 0, none⟩ (by simp) rfl).resolve_left (by simp)

theorem optionalF_one_le_count (x : SNode) (h : x.optionalF = true) :
    1 ≤ spineOptionalCount x := by
  cases x <;> simp_all [SNode.optionalF, spineOptionalCount]

theorem memberS_ne_base (b : SNode) (p : String) (c o : Bool) :
    SNode.memberS b p c o ≠ b := by
  intro h
  have hs := congrArg sizeOf h
  simp only [SNode.memberS.sizeOf_spec] at hs
  omega

theorem callS_ne_base (b : SNode) (a : List String) (o : Bool) :
    SNode.callS b a o ≠ b := by
  intro h
  have hs := congrArg sizeOf h
  simp only [SNode.callS.sizeOf_spec] at hs
  omega

theorem taggedS_ne_base (b : SNode) : SNode.taggedS b ≠ b := by
  intro h
  have hs := congrArg sizeOf h
  simp only [SNode.taggedS.sizeOf_spec] at hs
  omega

/-- Every successful `parseSubscript` step returns the base unchanged, a
member or call wrapping exactly the base, or a tagged template of the base
(the latter only when no optional chain is pending). -/
theorem parseSubscript_shape (fuel ecma : Nat) (base : SNode)
    (noCalls oc : Bool) (toks : List STok) (el : SNode) (r : List STok)
    (h : parseSubscript fuel ecma base noCalls oc toks = .ok (el, r)) :
    el = base
      ∨ (∃ p c o, el = .memberS base p c o)
      ∨ (∃ args o, el = .callS base args o)
      ∨ (el = .taggedS base ∧ oc = false) := by
  simp only [parseSubscript] at h
  repeat' split at h
  all_goals try exact Except.noConfusion h
  all_goals
    simp only [Except.ok.injEq, Prod.mk.injEq] at h
    obtain ⟨h1, h2⟩ := h
    subst h1
  all_goals
    first
    | exact Or.inl rfl
    | exact Or.inr (Or.inl ⟨_, _, _, rfl⟩)
    | exact Or.inr (Or.inr (Or.inl ⟨_, _, rfl⟩))
    | (refine Or.inr (Or.inr (Or.inr ⟨rfl, ?_⟩))
       cases hb : oc
       · rfl
       · exfalso
         simp_all)

/-- Once the `optionalChained` flag of the subscript loop is set, the
eventual result is always wrapped in a `ChainExpression`. -/
theorem parseSubscriptsLoop_flag_wraps : ∀ (fuel ecma : Nat) (base : SNode)
    (noCalls : Bool) (toks : List STok) (n : SNode) (r : List STok),
    parseSubscriptsLoop fuel ecma base noCalls true toks = .ok (n, r) →
    ∃ e, n = .chainS e
  | 0, _, _, _, _, _, _, h => by simp [parseSubscriptsLoop] at h
  | fuel + 1, ecma, base, noCalls, toks, n, r, h => by
    simp only [parseSubscriptsLoop] at h
    cases hs : parseSubscript fuel ecma base noCalls true toks with
    | error e =>
      rw [hs] at h
      simp at h
    | ok elr =>
      rw [hs] at h
      obtain ⟨el, toks2⟩ := elr
      dsimp only at h
      split at h
      · split at h
        · simp at h
          first
          | exact ⟨el, h.1.symm⟩
          | exact ⟨el, h.1⟩
        · simp at h
          first
          | exact ⟨el, h.1.symm⟩
          | exact ⟨el, h.1⟩
      · rw [ite_self] at h
        exact parseSubscriptsLoop_flag_wraps fuel ecma el noCalls toks2 n r h

/-- The spine-count invariant of the subscript loop: provided the flag
implies at least one optional on the current base's spine and the base is
not itself a `ChainExpression`, any `ChainExpression` result wraps a spine
with at least one `optional = true` subnode. -/
theorem parseSubscriptsLoop_chain_count : ∀ (fuel ecma : Nat) (base : SNode)
    (noCalls oc : Bool) (toks : List STok) (n : SNode) (r : List STok),
    (oc = true → 1 ≤ spineOptionalCount base) →
    (∀ e, base ≠ .chainS e) →
    parseSubscriptsLoop fuel ecma base noCalls oc toks = .ok (n, r) →
    ∀ e, n = .chainS e → 1 ≤ spineOptionalCount e
  | 0, _, _, _, _, _, _, _, _, _, h => by simp [parseSubscriptsLoop] at h
  | fuel + 1, ecma, base, noCalls, oc, toks, n, r, hinv, hnc, h => by
    simp only [parseSubscriptsLoop] at h
    cases hs : parseSubscript fuel ecma base noCalls oc toks with
    | error e =>
      rw [hs] at h
      simp at h
    | ok elr =>
      rw [hs] at h
      obtain ⟨el, toks2⟩ := elr
      dsimp only at h
      rcases parseSubscript_shape fuel ecma base noCalls oc toks el toks2 hs with
        hel | ⟨p, c, o, hel⟩ | ⟨args, o, hel⟩ | ⟨hel, hoc⟩
      · subst hel
        split at h
        · split at h
          · next hbo =>
            simp at h
            intro e he
            have hne : n = SNode.chainS el := by
              first
              | exact h.1.symm
              | exact h.1
            rw [hne] at he
            cases he
            exact optionalF_one_le_count el hbo
          · next hbo =>
            split at h
            · next hoc2 =>
              simp at h
              intro e he
              have hne : n = SNode.chainS el := by
                first
                | exact h.1.symm
                | exact h.1
              rw [hne] at he
              cases he
              exact hinv hoc2
            · simp at h
              intro e he
              have hne : n = el := by
                first
                | exact h.1.symm
                | exact h.1
              rw [hne] at he
              exact absurd he (hnc e)
        · next hexit =>
          exact absurd (show (el == el
              || SNode.typeNameS el == "ArrowFunctionExpression") = true by simp)
            hexit
      · subst hel
        split at h
        · next hexit =>
          exfalso
          simp only [Bool.or_eq_true, beq_iff_eq] at hexit
          rcases hexit with hexit | hexit
          · exact memberS_ne_base base p c o hexit
          · simp [SNode.typeNameS] at hexit
        · refine parseSubscriptsLoop_chain_count fuel ecma _ noCalls _ toks2 n r
            ?_ (by intro e; simp) h
          intro hoc2
          simp only [SNode.optionalF] at hoc2
          cases o with
          | true => exact optionalF_one_le_count _ (by simp [SNode.optionalF])
          | false =>
            simp at hoc2
            calc 1 ≤ spineOptionalCount base := hinv hoc2
              _ ≤ spineOptionalCount (SNode.memberS base p c false) := by
                  simp [spineOptionalCount]
      · subst hel
        split at h
        · next hexit =>
          exfalso
          simp only [Bool.or_eq_true, beq_iff_eq] at hexit
          rcases hexit with hexit | hexit
          · exact callS_ne_base base args o hexit
          · simp [SNode.typeNameS] at hexit
        · refine parseSubscriptsLoop_chain_count fuel ecma _ noCalls _ toks2 n r
            ?_ (by intro e; simp) h
          intro hoc2
          simp only [SNode.optionalF] at hoc2
          cases o with
          | true => exact optionalF_one_le_count _ (by simp [SNode.optionalF])
          | false =>
            simp at hoc2
            calc 1 ≤ spineOptionalCount base := hinv hoc2
              _ ≤ spineOptionalCount (SNode.callS base args false) := by
                  simp [spineOptionalCount]
      · subst hel
        subst hoc
        split at h
        · next hexit =>
          exfalso
          simp only [Bool.or_eq_true, beq_iff_eq] at hexit
          rcases hexit with hexit | hexit
          · exact taggedS_ne_base base hexit
          · simp [SNode.typeNameS] at hexit
        · refine parseSubscriptsLoop_chain_count fuel ecma _ noCalls _ toks2 n r
            ?_ (by intro e; simp) h
          intro hoc2
          simp only [SNode.optionalF] at hoc2
          simp at hoc2

/-- C2 counterexample: for `a?.b?.c` the parser returns a
`ChainExpression` whose spine carries two `optional = true` subnodes — not
exactly one as the claim (and spec invariant 7) state; the spec's own
scenario 5 (`a?.b.c?.()`) already has two. -/
theorem c2_two_optional_spine_nodes :
    parseSubscripts 9 13 (.identS "a") false
        [.qdotT, .nameST "b", .qdotT, .nameST "c"]
      = .ok (.chainS (.memberS (.memberS (.identS "a") "b" false true)
          "c" false true), [])
    ∧ spineOptionalCount
        (.memberS (.memberS (.identS "a") "b" false true) "c" false true) = 2
    ∧ (2 : Nat) ≠ 1 := by
  refine ⟨rfl, rfl, by decide⟩

/-- C2 (amended): every `ChainExpression` the subscript parser produces
wraps a spine with at least one `optional = true` subnode (not exactly
one); once some subscript in the chain was optional — the loop's
`optionalChained` flag is set — the outermost result is always wrapped in
a `ChainExpression`, and without any `?.` no wrapping happens, as the
concrete runs `a.b` (plain member) and `a?.b` (wrapped) illustrate. -/
theorem c2_chain_wraps_optional_spine (fuel ecma : Nat) (base : SNode)
    (noCalls : Bool) (toks : List STok) (n : SNode) (r : List STok)
    (hbase : ∀ e, base ≠ .chainS e) :
    (parseSubscripts fuel ecma base noCalls toks = .ok (n, r) →
      ∀ e, n = .chainS e → 1 ≤ spineOptionalCount e)
    ∧ (parseSubscriptsLoop fuel ecma base noCalls true toks = .ok (n, r) →
      ∃ e, n = .chainS e)
    ∧ (parseSubscripts 9 13 (.identS "a") false [.dotT, .nameST "b"]
      = .ok (.memberS (.identS "a") "b" false false, []))
    ∧ (parseSubscripts 9 13 (.identS "a") false [.qdotT, .nameST "b"]
      = .ok (.chainS (.memberS (.identS "a") "b" false true), [])) := by
  refine ⟨?_, ?_, rfl, rfl⟩
  · intro h
    exact parseSubscriptsLoop_chain_count fuel ecma base noCalls false toks n r
      (by simp) hbase h
  · intro h
    exact parseSubscriptsLoop_flag_wraps fuel ecma base noCalls toks n r h

/-- C2 witness: the amended theorem applied to the concrete parse of
`a?.b`, discharging the hypotheses at that input. -/
theorem c2_chain_wraps_optional_spine_witness :
    1 ≤ spineOptionalCount (.memberS (.identS "a") "b" false true) :=
  (c2_chain_wraps_optional_spine 9 13 (.identS "a") false
      [.qdotT, .nameST "b"]
      (.chainS (.memberS (.identS "a") "b" false true)) []
      (by intro e; simp)).1 (by rfl) _ rfl

end Acorn
